import Mathlib

/-!
# UParTEvaluator: per-jet tensor construction and inference orchestration

A shallow embedding of `Inference/src/UParTEvaluator.cc` (class `hitools::UParTEvaluator`).

Modelling conventions.

* The jet kinematics (pt, eta, phi, mass) and the two selection limits are values of
  `FloatVal`: a number, represented by the rational it denotes, or NaN. Comparisons follow
  IEEE 754: exact on numbers, false as soon as one side is NaN. The selection guard of `analyze`
  reads these values directly, so its behaviour on NaN is part of the model.
* The candidate quantities, the result of `reco::deltaR` and the scores are numbers, represented
  by rationals (`std::sort` has no defined behaviour on a NaN key, and `reco::deltaR` is
  external). Infinities and rounding (for instance the `double` to `float` narrowing of
  `jet_pt_ = jet.pt()`) are outside the model.
* `unsigned` is a 32-bit machine integer: a `Nat` reduced modulo `2 ^ 32` at every cast and
  arithmetic operation. `int64_t` shape entries are `Int`.
* An `edm::Handle` is an `Option`: `none` is an invalid handle.
* The member state of the analyzer is the record `UParTEvaluator`; the member functions are
  state transformers. Every call that leaves the class (histogram `Fill`, tree `Fill`, the ONNX
  session `run`, the message logger) is appended, in program order, to the field `calls`.
* `reco::deltaR` and `cms::Ort::ONNXRuntime::run` are external: they are parameters `deltaR`
  and `run` of the functions that use them. `run` either signals a fault (`Except.error`) or
  returns the list of output tensors.
* The candidate lists of `fillInputTensors` hold pointers into the collection; here they hold
  the candidates themselves, one entry per pointer. `std::sort` is an insertion sort driven by
  the comparator of the source.
* `beginJob` has run: every histogram and the tree exist, so a `Fill` never fails.
-/

namespace hitools

/-- A floating-point value: NaN or a number. -/
inductive FloatVal where
  | nan
  | fin (q : ℚ)
  deriving DecidableEq, Repr

/-- The comparison `a < b` of two floating-point values; false when one of them is NaN. -/
def FloatVal.lt : FloatVal → FloatVal → Bool
  | .fin a, .fin b => decide (a < b)
  | _, _ => false

/-- The comparison `a <= b` of two floating-point values; false when one of them is NaN. -/
def FloatVal.le : FloatVal → FloatVal → Bool
  | .fin a, .fin b => decide (a ≤ b)
  | _, _ => false

instance : LT FloatVal := ⟨fun a b => FloatVal.lt a b = true⟩

instance : LE FloatVal := ⟨fun a b => FloatVal.le a b = true⟩

instance (a b : FloatVal) : Decidable (a < b) :=
  inferInstanceAs (Decidable (FloatVal.lt a b = true))

instance (a b : FloatVal) : Decidable (a ≤ b) :=
  inferInstanceAs (Decidable (FloatVal.le a b = true))

instance (n : Nat) : OfNat FloatVal n := ⟨.fin (OfNat.ofNat n)⟩

instance : OfScientific FloatVal := ⟨fun m s e => .fin (OfScientific.ofScientific m s e)⟩

/-- The jet attributes read by the analyzer (`pat::Jet` accessors). -/
structure Jet where
  pt : FloatVal
  eta : FloatVal
  phi : FloatVal
  mass : FloatVal
  deriving DecidableEq, Repr

/-- The candidate attributes read by the analyzer (`pat::PackedCandidate` accessors). -/
structure PackedCandidate where
  pt : ℚ
  eta : ℚ
  phi : ℚ
  charge : Int
  hasTrackDetails : Bool
  lostInnerHits : Int
  deriving DecidableEq, Repr

/-- The two collections an event offers through `getByToken`; `none` is an invalid handle. -/
structure Event where
  jets : Option (List Jet)
  pfCands : Option (List PackedCandidate)
  deriving DecidableEq, Repr

/-- The container `cms::Ort::FloatArrays`, a vector of float vectors. -/
abbrev FloatArrays := List (List ℚ)

/-- The behaviour of `onnxSession_->run(inputNames, tensorData, inputShapes, outputNames, batch)`:
a fault with its message, or the output tensors. -/
abbrev OnnxRun :=
  List String → FloatArrays → List (List Int) → List String → Nat → Except String FloatArrays

/-- The type of `reco::deltaR(eta1, phi1, eta2, phi2)`, called with the jet axis first. -/
abbrev DeltaR := FloatVal → FloatVal → ℚ → ℚ → ℚ

/-- One call made on an external collaborator. Log messages keep their fixed text only. -/
inductive Call where
  | logInfo (msg : String)
  | logWarning (msg : String)
  | logError (msg : String)
  | jetPtHistFill (x : FloatVal)
  | jetEtaHistFill (x : FloatVal)
  | probHistFill (className : String) (x : ℚ)
  | ptVsProbFill (x : FloatVal) (y : ℚ)
  | outputTreeFill (jet_pt : FloatVal) (jet_eta : FloatVal) (jet_phi : FloatVal)
      (jet_mass : FloatVal) (upart_probs : List ℚ)
  | onnxRun (inputNames : List String) (tensorData : FloatArrays) (inputShapes : List (List Int))
      (outputNames : List String) (batch : Nat)
  deriving DecidableEq, Repr

/-- Output sinks: the jet-pt and jet-eta histograms, the per-class score histograms, the
pt-vs-score histogram and the output tree. -/
def Call.isSink : Call → Bool
  | .jetPtHistFill _ => true
  | .jetEtaHistFill _ => true
  | .probHistFill _ _ => true
  | .ptVsProbFill _ _ => true
  | .outputTreeFill _ _ _ _ _ => true
  | _ => false

/-- The sinks that carry scores: per-class score histograms, pt-vs-score histogram, output tree. -/
def Call.isScoreSink : Call → Bool
  | .probHistFill _ _ => true
  | .ptVsProbFill _ _ => true
  | .outputTreeFill _ _ _ _ _ => true
  | _ => false

/-- A row appended to the output tree. -/
def Call.isTreeFill : Call → Bool
  | .outputTreeFill _ _ _ _ _ => true
  | _ => false

/-- An invocation of the model. -/
def Call.isOnnxRun : Call → Bool
  | .onnxRun _ _ _ _ _ => true
  | _ => false

/-- The data members of `hitools::UParTEvaluator`, and the record of external calls. -/
structure UParTEvaluator where
  jetPtMin_ : FloatVal
  jetEtaMax_ : FloatVal
  inputNames_ : List String
  outputNames_ : List String
  inputSizes_ : List Nat
  inputShapes_ : List (List Int)
  tensorData_ : FloatArrays
  jet_pt_ : FloatVal
  jet_eta_ : FloatVal
  jet_phi_ : FloatVal
  jet_mass_ : FloatVal
  upart_probs_ : List ℚ
  classNames_ : List String
  calls : List Call
  deriving DecidableEq, Repr

/-- Record one external call. -/
def UParTEvaluator.call (st : UParTEvaluator) (c : Call) : UParTEvaluator :=
  { st with calls := st.calls ++ [c] }

/-- The class-name list assigned in the constructor. -/
def classNames : List String :=
  ["probb", "probbb", "problepb", "probc", "probs", "probu", "probd", "probg",
   "probele", "probmu", "probtaup1h0p", "probtaup1h1p", "probtaup1h2p",
   "probtaup3h0p", "probtaup3h1p", "probtaum1h0p", "probtaum1h1p",
   "probtaum1h2p", "probtaum3h0p", "probtaum3h1p", "ptcorr", "ptreshigh",
   "ptreslow", "ptnu", "probemudata", "probemumc", "probdimudata",
   "probdimumc", "probmutaudata", "probmutaumc"]

/-- The constructor `UParTEvaluator::UParTEvaluator`. The four `jet_*_` floats are not
initialised by the source; `uninit` stands for their indeterminate value. -/
def UParTEvaluator.new (jetPtMin jetEtaMax uninit : FloatVal) : UParTEvaluator :=
  { jetPtMin_ := jetPtMin
    jetEtaMax_ := jetEtaMax
    inputNames_ := ["input_1", "input_2", "input_3", "input_4", "input_5", "input_6", "input_7",
      "input_8"]
    outputNames_ := ["softmax"]
    inputSizes_ := []
    inputShapes_ := []
    tensorData_ := []
    jet_pt_ := uninit
    jet_eta_ := uninit
    jet_phi_ := uninit
    jet_mass_ := uninit
    upart_probs_ := List.replicate classNames.length 0
    classNames_ := classNames
    calls := [.logInfo "Initialized with model: ", .logInfo "Number of output classes: "] }

/-- The cast `(unsigned)x` of a `size_t`. -/
def toUnsigned (x : Nat) : Nat := x % 2 ^ 32

/-- The function `std::clamp(v, lo, hi)`. -/
def clamp (v lo hi : Nat) : Nat :=
  if v < lo then lo else if hi < v then hi else v

/-- The function `std::abs` on a floating-point value. -/
def fabs : FloatVal → FloatVal
  | .nan => .nan
  | .fin q => .fin (if q < 0 then -q else q)

/-- The three local candidate lists of `fillInputTensors`. -/
structure Constituents where
  chargedCands : List PackedCandidate
  neutralCands : List PackedCandidate
  lostTracks : List PackedCandidate
  deriving DecidableEq, Repr

/-- The constant `deltaR_max`. -/
def deltaR_max : ℚ := 0.4

/-- One iteration of the loop `for (const auto& cand : *pfCands)`. -/
def categorizeStep (deltaR : DeltaR) (jet : Jet) (acc : Constituents) (cand : PackedCandidate) :
    Constituents :=
  if deltaR jet.eta jet.phi cand.eta cand.phi > deltaR_max then acc
  else if cand.charge != 0 && cand.hasTrackDetails then
    if cand.lostInnerHits > 0 then
      { acc with lostTracks := acc.lostTracks ++ [cand] }
    else
      { acc with chargedCands := acc.chargedCands ++ [cand] }
  else if cand.charge == 0 then
    { acc with neutralCands := acc.neutralCands ++ [cand] }
  else acc

/-- The categorisation loop of `fillInputTensors`, from three empty lists. -/
def categorize (deltaR : DeltaR) (jet : Jet) (pfCands : List PackedCandidate) : Constituents :=
  pfCands.foldl (categorizeStep deltaR jet) ⟨[], [], []⟩

/-- The comparator `ptSort`. -/
def ptSort (a b : PackedCandidate) : Bool := a.pt > b.pt

/-- Insert `x` into a list ordered by the comparator `comp`: `x` goes in front of the first
element it precedes. -/
def sortInsert {α : Type} (comp : α → α → Bool) (x : α) : List α → List α
  | [] => [x]
  | y :: ys => if comp x y then x :: y :: ys else y :: sortInsert comp x ys

/-- The call `std::sort(first, last, comp)`. The standard fixes the result up to the order of
equivalent elements; this is the insertion sort, which keeps them in input order. -/
def stdSort {α : Type} (comp : α → α → Bool) (l : List α) : List α :=
  l.foldl (fun acc x => sortInsert comp x acc) []

def max_cpf : Nat := 29
def max_lt : Nat := 5
def max_npf : Nat := 25
def max_sv : Nat := 5
def cpf_features : Nat := 25
def lt_features : Nat := 18
def npf_features : Nat := 8
def sv_features : Nat := 14
def vec4_features : Nat := 4

/-- The three sorted lists of `fillInputTensors`, as they stand after the three `std::sort`
calls. -/
def sortedConstituents (deltaR : DeltaR) (jet : Jet) (pfCands : List PackedCandidate) :
    Constituents :=
  let c := categorize deltaR jet pfCands
  { chargedCands := stdSort ptSort c.chargedCands
    neutralCands := stdSort ptSort c.neutralCands
    lostTracks := stdSort ptSort c.lostTracks }

/-- The effective count `n_cpf`. -/
def n_cpf (c : Constituents) : Nat := clamp (toUnsigned c.chargedCands.length) 1 max_cpf
/-- The effective count `n_lt`. -/
def n_lt (c : Constituents) : Nat := clamp (toUnsigned c.lostTracks.length) 1 max_lt
/-- The effective count `n_npf`. -/
def n_npf (c : Constituents) : Nat := clamp (toUnsigned c.neutralCands.length) 1 max_npf
/-- The effective count `n_sv`. -/
def n_sv : Nat := 1

/-- The shapes pushed onto `inputShapes_`. -/
def shapesOf (c : Constituents) : List (List Int) :=
  [[1, (n_cpf c : Int), (cpf_features : Int)],
   [1, (n_lt c : Int), (lt_features : Int)],
   [1, (n_npf c : Int), (npf_features : Int)],
   [1, (n_sv : Int), (sv_features : Int)],
   [1, (n_cpf c : Int), (vec4_features : Int)],
   [1, (n_lt c : Int), (vec4_features : Int)],
   [1, (n_npf c : Int), (vec4_features : Int)],
   [1, (n_sv : Int), (vec4_features : Int)]]

/-- The sizes pushed onto `inputSizes_` (products of `unsigned` values). -/
def sizesOf (c : Constituents) : List Nat :=
  [toUnsigned (n_cpf c * cpf_features),
   toUnsigned (n_lt c * lt_features),
   toUnsigned (n_npf c * npf_features),
   toUnsigned (n_sv * sv_features),
   toUnsigned (n_cpf c * vec4_features),
   toUnsigned (n_lt c * vec4_features),
   toUnsigned (n_npf c * vec4_features),
   toUnsigned (n_sv * vec4_features)]

/-- The member function `UParTEvaluator::fillInputTensors`. -/
def fillInputTensors (deltaR : DeltaR) (jet : Jet) (iEvent : Event) (st : UParTEvaluator) :
    UParTEvaluator :=
  match iEvent.pfCands with
  | none => st.call (.logWarning "Invalid PF candidate collection")
  | some pfCands =>
    let c := sortedConstituents deltaR jet pfCands
    let inputShapes := shapesOf c
    let inputSizes := sizesOf c
    let tensorData := inputSizes.map (fun size => List.replicate size (0 : ℚ))
    ({ st with inputShapes_ := inputShapes, inputSizes_ := inputSizes,
               tensorData_ := tensorData }).call
      (.logInfo "Filled tensors for inference: ")

/-- The sentinel `std::vector<float>(classNames_.size(), -1.0)`. -/
def sentinel (st : UParTEvaluator) : List ℚ := List.replicate st.classNames_.length (-1)

/-- The member function `UParTEvaluator::runInference`: the returned vector and the new state. -/
def runInference (deltaR : DeltaR) (run : OnnxRun) (jet : Jet) (iEvent : Event)
    (st : UParTEvaluator) : List ℚ × UParTEvaluator :=
  let st1 := fillInputTensors deltaR jet iEvent st
  let st2 := st1.call
    (.onnxRun st1.inputNames_ st1.tensorData_ st1.inputShapes_ st1.outputNames_ 1)
  match run st1.inputNames_ st1.tensorData_ st1.inputShapes_ st1.outputNames_ 1 with
  | .error _ => (sentinel st2, st2.call (.logError "Inference error: "))
  | .ok outputs =>
    match outputs with
    | [] => (sentinel st2, st2.call (.logWarning "Empty inference output"))
    | out0 :: _ =>
      if out0.isEmpty then (sentinel st2, st2.call (.logWarning "Empty inference output"))
      else (out0, st2)

/-- The loop `for (size_t i = 0; i < classNames_.size(); ++i)` of `processJet`, which fills
`probHists_[classNames_[i]]` with `predictions[i]`. It runs under the length guard, so both
indices are in range. -/
def fillProbHists (predictions : List ℚ) (st : UParTEvaluator) : UParTEvaluator :=
  (List.range st.classNames_.length).foldl
    (fun s i => s.call (.probHistFill (st.classNames_.getD i "") (predictions.getD i 0))) st

/-- The member function `UParTEvaluator::processJet`. Nothing in the body of its `try` block
raises in this model (`runInference` handles the model fault itself), so the `catch` branch has
no counterpart. -/
def processJet (deltaR : DeltaR) (run : OnnxRun) (jet : Jet) (iEvent : Event)
    (st : UParTEvaluator) : UParTEvaluator :=
  let st1 := { st with jet_pt_ := jet.pt, jet_eta_ := jet.eta, jet_phi_ := jet.phi,
                       jet_mass_ := jet.mass }
  let st2 := st1.call (.jetPtHistFill st1.jet_pt_)
  let st3 := st2.call (.jetEtaHistFill st2.jet_eta_)
  let (predictions, st4) := runInference deltaR run jet iEvent st3
  if predictions.length = st4.classNames_.length then
    let st5 := { st4 with upart_probs_ := predictions }
    let st6 := fillProbHists predictions st5
    let st7 := if !predictions.isEmpty then
        st6.call (.ptVsProbFill st6.jet_pt_ (predictions.getD 0 0))
      else st6
    let st8 := st7.call
      (.outputTreeFill st7.jet_pt_ st7.jet_eta_ st7.jet_phi_ st7.jet_mass_ st7.upart_probs_)
    st8.call (.logInfo "Processed jet: ")
  else
    st4.call (.logWarning "Unexpected prediction size: ")

/-- The selection of `analyze`: `true` when the jet is skipped by `continue`. -/
def skipJet (st : UParTEvaluator) (jet : Jet) : Bool :=
  jet.pt < st.jetPtMin_ || fabs jet.eta > st.jetEtaMax_

/-- The member function `UParTEvaluator::analyze`. -/
def analyze (deltaR : DeltaR) (run : OnnxRun) (iEvent : Event) (st : UParTEvaluator) :
    UParTEvaluator :=
  match iEvent.jets with
  | none => st.call (.logWarning "Invalid jet collection")
  | some jets =>
    jets.foldl
      (fun s jet => if skipJet s jet then s else processJet deltaR run jet iEvent s)
      (st.call (.logInfo "Processing jets in event "))

/-! ## Auxiliary definitions used to state the properties -/

/-- The cone test of the categorisation loop: the candidate is not skipped. -/
def inCone (deltaR : DeltaR) (jet : Jet) (cand : PackedCandidate) : Prop :=
  deltaR jet.eta jet.phi cand.eta cand.phi ≤ deltaR_max

instance (deltaR : DeltaR) (jet : Jet) (cand : PackedCandidate) :
    Decidable (inCone deltaR jet cand) := by
  unfold inCone; infer_instance

/-- The test under which the loop appends a candidate to `lostTracks`. -/
def isLostTrack (deltaR : DeltaR) (jet : Jet) (c : PackedCandidate) : Bool :=
  decide (inCone deltaR jet c) && (c.charge != 0 && c.hasTrackDetails) &&
    decide (c.lostInnerHits > 0)

/-- The test under which the loop appends a candidate to `chargedCands`. -/
def isCharged (deltaR : DeltaR) (jet : Jet) (c : PackedCandidate) : Bool :=
  decide (inCone deltaR jet c) && (c.charge != 0 && c.hasTrackDetails) &&
    decide (c.lostInnerHits ≤ 0)

/-- The test under which the loop appends a candidate to `neutralCands`. -/
def isNeutral (deltaR : DeltaR) (jet : Jet) (c : PackedCandidate) : Bool :=
  decide (inCone deltaR jet c) && c.charge == 0

/-- The message `fillInputTensors` logs: a warning on an invalid handle, else the summary. -/
def fillInputTensorsLog (iEvent : Event) : Call :=
  match iEvent.pfCands with
  | none => .logWarning "Invalid PF candidate collection"
  | some _ => .logInfo "Filled tensors for inference: "

/-- The outcome of the model call that `runInference` makes when entered in state `st`. -/
def modelOutcome (deltaR : DeltaR) (run : OnnxRun) (jet : Jet) (iEvent : Event)
    (st : UParTEvaluator) : Except String FloatArrays :=
  let st1 := fillInputTensors deltaR jet iEvent st
  run st1.inputNames_ st1.tensorData_ st1.inputShapes_ st1.outputNames_ 1

/-- The model invocation that `runInference` records when entered in state `st`. -/
def modelCall (deltaR : DeltaR) (jet : Jet) (iEvent : Event) (st : UParTEvaluator) : Call :=
  let st1 := fillInputTensors deltaR jet iEvent st
  .onnxRun st1.inputNames_ st1.tensorData_ st1.inputShapes_ st1.outputNames_ 1

/-- The state in which `processJet` enters `runInference`. -/
def jetState (jet : Jet) (st : UParTEvaluator) : UParTEvaluator :=
  (({ st with jet_pt_ := jet.pt, jet_eta_ := jet.eta, jet_phi_ := jet.phi,
              jet_mass_ := jet.mass }).call (.jetPtHistFill jet.pt)).call (.jetEtaHistFill jet.eta)

/-- The vector `runInference` returns, as a function of the outcome of the model call. -/
def resultOf (st : UParTEvaluator) : Except String FloatArrays → List ℚ
  | .error _ => sentinel st
  | .ok [] => sentinel st
  | .ok (out0 :: _) => if out0.isEmpty then sentinel st else out0

/-- The message `runInference` logs after the model call, if any. -/
def resultLog : Except String FloatArrays → List Call
  | .error _ => [.logError "Inference error: "]
  | .ok [] => [.logWarning "Empty inference output"]
  | .ok (out0 :: _) => if out0.isEmpty then [.logWarning "Empty inference output"] else []

/-- The calls the per-class loop of `processJet` makes on the score histograms. -/
def probHistCalls (names : List String) (predictions : List ℚ) : List Call :=
  (List.range names.length).map
    (fun i => Call.probHistFill (names.getD i "") (predictions.getD i 0))

/-- The calls `processJet` makes once the length guard has passed. -/
def recordCalls (names : List String) (jet : Jet) (predictions : List ℚ) : List Call :=
  probHistCalls names predictions ++
    (if predictions.isEmpty then [] else [Call.ptVsProbFill jet.pt (predictions.getD 0 0)]) ++
    [Call.outputTreeFill jet.pt jet.eta jet.phi jet.mass predictions,
     Call.logInfo "Processed jet: "]

/-- The clamp of the specification: `x` limited to the range from `lo` to `hi`. -/
def specClamp (x lo hi : Nat) : Nat := max lo (min x hi)

/-- Row `r` of a flat buffer whose rows have `width` entries. -/
def tensorRow (buf : List ℚ) (width r : Nat) : List ℚ := (buf.drop (r * width)).take width

/-- The number of real candidates behind each of the eight tensors (none for the vertices). -/
def realCounts (k : Constituents) : List Nat :=
  [k.chargedCands.length, k.lostTracks.length, k.neutralCands.length, 0,
   k.chargedCands.length, k.lostTracks.length, k.neutralCands.length, 0]

/-- A charged candidate with track details and no lost inner hit. -/
def sampleCharged : PackedCandidate := ⟨5, 0, 0, 1, true, 0⟩

/-- A jet passing the default selection. -/
def sampleJet : Jet := ⟨50, 1, 0, 10⟩

/-- A jet whose pt is NaN. -/
def nanJet : Jet := ⟨.nan, 1, 0, 10⟩

/-- An angular distance that puts every candidate on the jet axis. -/
def deltaRZero : DeltaR := fun _ _ _ _ => 0

/-- An angular distance that puts every candidate outside the cone. -/
def deltaROne : DeltaR := fun _ _ _ _ => 1

/-- A model that returns one output tensor holding a single score. -/
def shortRun : OnnxRun := fun _ _ _ _ _ => .ok [[1 / 2]]

/-- A model whose call raises a fault. -/
def faultRun : OnnxRun := fun _ _ _ _ _ => .error "fault"

/-- An event with one jet and an empty, valid candidate collection. -/
def sampleEvent : Event := ⟨some [sampleJet], some []⟩

/-- The constructor state with buffers `td` and shapes `sh` left in the tensor members by an
earlier jet. -/
def staleState (td : FloatArrays) (sh : List (List Int)) : UParTEvaluator :=
  { UParTEvaluator.new 20 2.4 0 with tensorData_ := td, inputShapes_ := sh }

/-! ## Lemmas -/

theorem categorizeStep_eq (deltaR : DeltaR) (jet : Jet) (acc : Constituents) (c : PackedCandidate) :
    categorizeStep deltaR jet acc c =
      { chargedCands := acc.chargedCands ++ (if isCharged deltaR jet c then [c] else [])
        neutralCands := acc.neutralCands ++ (if isNeutral deltaR jet c then [c] else [])
        lostTracks := acc.lostTracks ++ (if isLostTrack deltaR jet c then [c] else []) } := by
  unfold categorizeStep isCharged isNeutral isLostTrack inCone
  by_cases h1 : deltaR jet.eta jet.phi c.eta c.phi > deltaR_max
  · have h1' : ¬ deltaR jet.eta jet.phi c.eta c.phi ≤ deltaR_max := not_le.mpr h1
    simp [h1, h1']
  · have h1' : deltaR jet.eta jet.phi c.eta c.phi ≤ deltaR_max := not_lt.mp h1
    by_cases h2 : c.charge = 0
    · simp [h1, h1', h2]
    · by_cases h3 : c.hasTrackDetails = true
      · by_cases h4 : c.lostInnerHits > 0
        · have h4' : ¬ c.lostInnerHits ≤ 0 := not_le.mpr h4
          simp [h1, h1', h2, h3, h4, h4']
        · have h4' : c.lostInnerHits ≤ 0 := not_lt.mp h4
          simp [h1, h1', h2, h3, h4, h4']
      · simp [h1, h1', h2, h3]

theorem foldl_categorizeStep (deltaR : DeltaR) (jet : Jet) (l : List PackedCandidate) :
    ∀ acc : Constituents, l.foldl (categorizeStep deltaR jet) acc =
      { chargedCands := acc.chargedCands ++ l.filter (isCharged deltaR jet)
        neutralCands := acc.neutralCands ++ l.filter (isNeutral deltaR jet)
        lostTracks := acc.lostTracks ++ l.filter (isLostTrack deltaR jet) } := by
  induction l with
  | nil => intro acc; simp
  | cons c cs ih =>
    intro acc
    rw [List.foldl_cons, ih, categorizeStep_eq]
    simp only [List.filter_cons, List.append_assoc]
    congr 1 <;> (split <;> simp)

theorem categorize_eq_filter (deltaR : DeltaR) (jet : Jet) (l : List PackedCandidate) :
    categorize deltaR jet l =
      { chargedCands := l.filter (isCharged deltaR jet)
        neutralCands := l.filter (isNeutral deltaR jet)
        lostTracks := l.filter (isLostTrack deltaR jet) } := by
  unfold categorize
  rw [foldl_categorizeStep]
  simp

theorem sortInsert_perm {α : Type} (comp : α → α → Bool) (x : α) :
    ∀ l : List α, (sortInsert comp x l).Perm (x :: l) := by
  intro l
  induction l with
  | nil => simp [sortInsert]
  | cons y ys ih =>
    unfold sortInsert
    split
    · exact List.Perm.refl _
    · exact (List.Perm.cons y ih).trans (List.Perm.swap x y ys)

theorem foldl_sortInsert_perm {α : Type} (comp : α → α → Bool) (l : List α) :
    ∀ acc : List α, (l.foldl (fun acc x => sortInsert comp x acc) acc).Perm (acc ++ l) := by
  induction l with
  | nil => intro acc; simp
  | cons x xs ih =>
    intro acc
    rw [List.foldl_cons]
    refine (ih _).trans ?_
    refine ((sortInsert_perm comp x acc).append_right xs).trans ?_
    simpa using (@List.perm_middle _ x acc xs).symm

theorem stdSort_perm {α : Type} (comp : α → α → Bool) (l : List α) :
    (stdSort comp l).Perm l := by
  simpa [stdSort] using foldl_sortInsert_perm comp l []

theorem stdSort_length {α : Type} (comp : α → α → Bool) (l : List α) :
    (stdSort comp l).length = l.length :=
  (stdSort_perm comp l).length_eq

theorem sortInsert_ptSort_pairwise (x : PackedCandidate) :
    ∀ l : List PackedCandidate, l.Pairwise (fun a b => a.pt ≥ b.pt) →
      (sortInsert ptSort x l).Pairwise (fun a b => a.pt ≥ b.pt) := by
  intro l
  induction l with
  | nil => intro _; simp [sortInsert]
  | cons y ys ih =>
    intro h
    have hy := List.pairwise_cons.mp h
    unfold sortInsert
    split
    · rename_i hc
      have hxy : x.pt > y.pt := by simpa [ptSort] using hc
      refine List.pairwise_cons.mpr ⟨?_, h⟩
      intro b hb
      rcases List.mem_cons.mp hb with rfl | hb
      · exact le_of_lt hxy
      · exact le_trans (hy.1 b hb) (le_of_lt hxy)
    · rename_i hc
      have hxy : x.pt ≤ y.pt := by simpa [ptSort] using hc
      refine List.pairwise_cons.mpr ⟨?_, ih hy.2⟩
      intro b hb
      rcases List.mem_cons.mp ((sortInsert_perm ptSort x ys).mem_iff.mp hb) with rfl | hb
      · exact hxy
      · exact hy.1 b hb

theorem foldl_sortInsert_ptSort_pairwise (l : List PackedCandidate) :
    ∀ acc : List PackedCandidate, acc.Pairwise (fun a b => a.pt ≥ b.pt) →
      (l.foldl (fun acc x => sortInsert ptSort x acc) acc).Pairwise (fun a b => a.pt ≥ b.pt) := by
  induction l with
  | nil => intro acc h; simpa using h
  | cons x xs ih =>
    intro acc h
    rw [List.foldl_cons]
    exact ih _ (sortInsert_ptSort_pairwise x acc h)

theorem stdSort_ptSort_pairwise (l : List PackedCandidate) :
    (stdSort ptSort l).Pairwise (fun a b => a.pt ≥ b.pt) :=
  foldl_sortInsert_ptSort_pairwise l [] List.Pairwise.nil

theorem stdSort_ptSort_chain (l : List PackedCandidate) :
    (stdSort ptSort l).Chain' (fun a b => a.pt ≥ b.pt) :=
  List.Pairwise.chain' (stdSort_ptSort_pairwise l)

@[simp] theorem call_calls (st : UParTEvaluator) (c : Call) :
    (st.call c).calls = st.calls ++ [c] := rfl
@[simp] theorem call_classNames (st : UParTEvaluator) (c : Call) :
    (st.call c).classNames_ = st.classNames_ := rfl
@[simp] theorem call_upart_probs (st : UParTEvaluator) (c : Call) :
    (st.call c).upart_probs_ = st.upart_probs_ := rfl
@[simp] theorem call_jetPtMin (st : UParTEvaluator) (c : Call) :
    (st.call c).jetPtMin_ = st.jetPtMin_ := rfl
@[simp] theorem call_jetEtaMax (st : UParTEvaluator) (c : Call) :
    (st.call c).jetEtaMax_ = st.jetEtaMax_ := rfl
@[simp] theorem call_tensorData (st : UParTEvaluator) (c : Call) :
    (st.call c).tensorData_ = st.tensorData_ := rfl
@[simp] theorem call_inputShapes (st : UParTEvaluator) (c : Call) :
    (st.call c).inputShapes_ = st.inputShapes_ := rfl
@[simp] theorem call_inputSizes (st : UParTEvaluator) (c : Call) :
    (st.call c).inputSizes_ = st.inputSizes_ := rfl
@[simp] theorem call_inputNames (st : UParTEvaluator) (c : Call) :
    (st.call c).inputNames_ = st.inputNames_ := rfl
@[simp] theorem call_outputNames (st : UParTEvaluator) (c : Call) :
    (st.call c).outputNames_ = st.outputNames_ := rfl
@[simp] theorem call_jet_pt (st : UParTEvaluator) (c : Call) :
    (st.call c).jet_pt_ = st.jet_pt_ := rfl
@[simp] theorem call_jet_eta (st : UParTEvaluator) (c : Call) :
    (st.call c).jet_eta_ = st.jet_eta_ := rfl
@[simp] theorem call_jet_phi (st : UParTEvaluator) (c : Call) :
    (st.call c).jet_phi_ = st.jet_phi_ := rfl
@[simp] theorem call_jet_mass (st : UParTEvaluator) (c : Call) :
    (st.call c).jet_mass_ = st.jet_mass_ := rfl

theorem fillInputTensors_calls (deltaR : DeltaR) (jet : Jet) (iEvent : Event)
    (st : UParTEvaluator) :
    (fillInputTensors deltaR jet iEvent st).calls = st.calls ++ [fillInputTensorsLog iEvent] := by
  unfold fillInputTensors fillInputTensorsLog
  cases iEvent.pfCands <;> simp

theorem fillInputTensors_fixed (deltaR : DeltaR) (jet : Jet) (iEvent : Event)
    (st : UParTEvaluator) :
    let st1 := fillInputTensors deltaR jet iEvent st
    st1.classNames_ = st.classNames_ ∧ st1.upart_probs_ = st.upart_probs_ ∧
    st1.jetPtMin_ = st.jetPtMin_ ∧ st1.jetEtaMax_ = st.jetEtaMax_ ∧
    st1.inputNames_ = st.inputNames_ ∧ st1.outputNames_ = st.outputNames_ ∧
    st1.jet_pt_ = st.jet_pt_ ∧ st1.jet_eta_ = st.jet_eta_ ∧
    st1.jet_phi_ = st.jet_phi_ ∧ st1.jet_mass_ = st.jet_mass_ := by
  unfold fillInputTensors
  cases iEvent.pfCands <;> simp

theorem sentinel_call (st : UParTEvaluator) (c : Call) : sentinel (st.call c) = sentinel st := rfl

theorem sentinel_fill (deltaR : DeltaR) (jet : Jet) (iEvent : Event) (st : UParTEvaluator) :
    sentinel (fillInputTensors deltaR jet iEvent st) = sentinel st := by
  unfold sentinel
  rw [(fillInputTensors_fixed deltaR jet iEvent st).1]

theorem runInference_fst (deltaR : DeltaR) (run : OnnxRun) (jet : Jet) (iEvent : Event)
    (st : UParTEvaluator) :
    (runInference deltaR run jet iEvent st).1 =
      resultOf st (modelOutcome deltaR run jet iEvent st) := by
  unfold runInference modelOutcome
  simp only [sentinel_call, sentinel_fill]
  generalize run _ _ _ _ 1 = r
  rcases r with e | (_ | ⟨out0, t⟩)
  · rfl
  · rfl
  · by_cases h : out0.isEmpty = true <;> simp [resultOf, h]

theorem runInference_snd_calls (deltaR : DeltaR) (run : OnnxRun) (jet : Jet) (iEvent : Event)
    (st : UParTEvaluator) :
    (runInference deltaR run jet iEvent st).2.calls =
      st.calls ++ [fillInputTensorsLog iEvent, modelCall deltaR jet iEvent st] ++
        resultLog (modelOutcome deltaR run jet iEvent st) := by
  unfold runInference modelOutcome modelCall
  simp only []
  generalize run _ _ _ _ 1 = r
  rcases r with e | (_ | ⟨out0, t⟩)
  · simp [resultLog, fillInputTensors_calls]
  · simp [resultLog, fillInputTensors_calls]
  · by_cases h : out0.isEmpty = true <;> simp [resultLog, h, fillInputTensors_calls]

theorem runInference_snd_fixed (deltaR : DeltaR) (run : OnnxRun) (jet : Jet) (iEvent : Event)
    (st : UParTEvaluator) :
    let st1 := (runInference deltaR run jet iEvent st).2
    st1.classNames_ = st.classNames_ ∧ st1.upart_probs_ = st.upart_probs_ ∧
    st1.jetPtMin_ = st.jetPtMin_ ∧ st1.jetEtaMax_ = st.jetEtaMax_ ∧
    st1.inputNames_ = st.inputNames_ ∧ st1.outputNames_ = st.outputNames_ ∧
    st1.jet_pt_ = st.jet_pt_ ∧ st1.jet_eta_ = st.jet_eta_ ∧
    st1.jet_phi_ = st.jet_phi_ ∧ st1.jet_mass_ = st.jet_mass_ := by
  have h := fillInputTensors_fixed deltaR jet iEvent st
  unfold runInference
  simp only []
  generalize run _ _ _ _ 1 = r
  rcases r with e | (_ | ⟨out0, t⟩)
  · simpa using h
  · simpa using h
  · by_cases h0 : out0.isEmpty = true <;> simpa [h0] using h

theorem foldl_call (f : Nat → Call) (l : List Nat) :
    ∀ s : UParTEvaluator,
      l.foldl (fun s i => s.call (f i)) s = { s with calls := s.calls ++ l.map f } := by
  induction l with
  | nil => intro s; simp
  | cons i is ih =>
    intro s
    rw [List.foldl_cons, ih]
    simp [UParTEvaluator.call]

theorem fillProbHists_eq (predictions : List ℚ) (st : UParTEvaluator) :
    fillProbHists predictions st =
      { st with calls := st.calls ++ probHistCalls st.classNames_ predictions } := by
  unfold fillProbHists probHistCalls
  exact foldl_call _ _ st

theorem jetState_fixed (jet : Jet) (st : UParTEvaluator) :
    (jetState jet st).classNames_ = st.classNames_ ∧
    (jetState jet st).upart_probs_ = st.upart_probs_ ∧
    (jetState jet st).jetPtMin_ = st.jetPtMin_ ∧
    (jetState jet st).jetEtaMax_ = st.jetEtaMax_ ∧
    (jetState jet st).inputNames_ = st.inputNames_ ∧
    (jetState jet st).outputNames_ = st.outputNames_ ∧
    (jetState jet st).tensorData_ = st.tensorData_ ∧
    (jetState jet st).inputShapes_ = st.inputShapes_ ∧
    (jetState jet st).inputSizes_ = st.inputSizes_ ∧
    (jetState jet st).jet_pt_ = jet.pt ∧ (jetState jet st).jet_eta_ = jet.eta ∧
    (jetState jet st).jet_phi_ = jet.phi ∧ (jetState jet st).jet_mass_ = jet.mass ∧
    (jetState jet st).calls = st.calls ++ [.jetPtHistFill jet.pt, .jetEtaHistFill jet.eta] := by
  simp [jetState]

/-- The tensor state `fillInputTensors` leaves depends on the prior tensor state alone. -/
theorem fillInputTensors_tensors_congr (deltaR : DeltaR) (jet : Jet) (iEvent : Event)
    (st st' : UParTEvaluator) (h1 : st.tensorData_ = st'.tensorData_)
    (h2 : st.inputShapes_ = st'.inputShapes_) (h3 : st.inputSizes_ = st'.inputSizes_) :
    (fillInputTensors deltaR jet iEvent st).tensorData_ =
      (fillInputTensors deltaR jet iEvent st').tensorData_ ∧
    (fillInputTensors deltaR jet iEvent st).inputShapes_ =
      (fillInputTensors deltaR jet iEvent st').inputShapes_ ∧
    (fillInputTensors deltaR jet iEvent st).inputSizes_ =
      (fillInputTensors deltaR jet iEvent st').inputSizes_ := by
  unfold fillInputTensors
  cases iEvent.pfCands <;> simp [h1, h2, h3]

theorem modelOutcome_jetState (deltaR : DeltaR) (run : OnnxRun) (jet : Jet) (iEvent : Event)
    (st : UParTEvaluator) :
    modelOutcome deltaR run jet iEvent (jetState jet st) = modelOutcome deltaR run jet iEvent st := by
  have hj := jetState_fixed jet st
  have hf := fillInputTensors_fixed deltaR jet iEvent (jetState jet st)
  have hf' := fillInputTensors_fixed deltaR jet iEvent st
  have ht := fillInputTensors_tensors_congr deltaR jet iEvent (jetState jet st) st
    hj.2.2.2.2.2.2.1 hj.2.2.2.2.2.2.2.1 hj.2.2.2.2.2.2.2.2.1
  unfold modelOutcome
  simp only []
  rw [hf.2.2.2.2.1, hf.2.2.2.2.2.1, hf'.2.2.2.2.1, hf'.2.2.2.2.2.1, ht.1, ht.2.1,
    hj.2.2.2.2.1, hj.2.2.2.2.2.1]

theorem modelCall_jetState (deltaR : DeltaR) (jet : Jet) (iEvent : Event)
    (st : UParTEvaluator) :
    modelCall deltaR jet iEvent (jetState jet st) = modelCall deltaR jet iEvent st := by
  have hj := jetState_fixed jet st
  have hf := fillInputTensors_fixed deltaR jet iEvent (jetState jet st)
  have hf' := fillInputTensors_fixed deltaR jet iEvent st
  have ht := fillInputTensors_tensors_congr deltaR jet iEvent (jetState jet st) st
    hj.2.2.2.2.2.2.1 hj.2.2.2.2.2.2.2.1 hj.2.2.2.2.2.2.2.2.1
  unfold modelCall
  simp only []
  rw [hf.2.2.2.2.1, hf.2.2.2.2.2.1, hf'.2.2.2.2.1, hf'.2.2.2.2.2.1, ht.1, ht.2.1,
    hj.2.2.2.2.1, hj.2.2.2.2.2.1]

theorem resultOf_congr (st st' : UParTEvaluator) (h : st.classNames_ = st'.classNames_)
    (r : Except String FloatArrays) : resultOf st r = resultOf st' r := by
  have hs : sentinel st = sentinel st' := by unfold sentinel; rw [h]
  rcases r with e | (_ | ⟨out0, t⟩) <;> simp [resultOf, hs]

/-- The vector `runInference` hands to `processJet` is the one it returns from the state at
entry of `processJet`. -/
theorem runInference_fst_jetState (deltaR : DeltaR) (run : OnnxRun) (jet : Jet) (iEvent : Event)
    (st : UParTEvaluator) :
    (runInference deltaR run jet iEvent (jetState jet st)).1 =
      (runInference deltaR run jet iEvent st).1 := by
  rw [runInference_fst, runInference_fst, modelOutcome_jetState]
  exact resultOf_congr _ _ (jetState_fixed jet st).1 _

/-- The member function `processJet`, with the two branches of its length guard spelled out. -/
theorem processJet_eq (deltaR : DeltaR) (run : OnnxRun) (jet : Jet) (iEvent : Event)
    (st : UParTEvaluator) :
    processJet deltaR run jet iEvent st =
      let p := runInference deltaR run jet iEvent (jetState jet st)
      if p.1.length = st.classNames_.length then
        { p.2 with upart_probs_ := p.1,
                   calls := p.2.calls ++ recordCalls st.classNames_ jet p.1 }
      else p.2.call (.logWarning "Unexpected prediction size: ") := by
  have hp := runInference_snd_fixed deltaR run jet iEvent (jetState jet st)
  have hj := jetState_fixed jet st
  unfold processJet
  dsimp only
  generalize hst : runInference deltaR run jet iEvent _ = p
  have hst2 : runInference deltaR run jet iEvent (jetState jet st) = p := hst
  rw [hst2] at hp
  rw [hst2]
  obtain ⟨preds, s4⟩ := p
  dsimp only at hp ⊢
  rw [hp.1, hj.1]
  split
  · rw [fillProbHists_eq]
    by_cases he : preds.isEmpty = true
    · simp [he, recordCalls, UParTEvaluator.call, hp, hj]
    · simp [he, recordCalls, UParTEvaluator.call, hp, hj]
  · rfl

theorem clamp_eq_specClamp (v lo hi : Nat) (h : lo ≤ hi) : clamp v lo hi = specClamp v lo hi := by
  unfold clamp specClamp
  split
  · omega
  · split <;> omega

theorem clamp_bounds (v lo hi : Nat) (h : lo ≤ hi) : lo ≤ clamp v lo hi ∧ clamp v lo hi ≤ hi := by
  unfold clamp
  split
  · omega
  · split <;> omega

theorem sortedConstituents_length (deltaR : DeltaR) (jet : Jet) (pfCands : List PackedCandidate) :
    (sortedConstituents deltaR jet pfCands).chargedCands.length =
      (categorize deltaR jet pfCands).chargedCands.length ∧
    (sortedConstituents deltaR jet pfCands).neutralCands.length =
      (categorize deltaR jet pfCands).neutralCands.length ∧
    (sortedConstituents deltaR jet pfCands).lostTracks.length =
      (categorize deltaR jet pfCands).lostTracks.length := by
  simp [sortedConstituents, stdSort_length]

theorem fillInputTensors_valid (deltaR : DeltaR) (jet : Jet) (jets : Option (List Jet))
    (pfCands : List PackedCandidate) (st : UParTEvaluator) :
    (fillInputTensors deltaR jet ⟨jets, some pfCands⟩ st).inputShapes_ =
      shapesOf (sortedConstituents deltaR jet pfCands) ∧
    (fillInputTensors deltaR jet ⟨jets, some pfCands⟩ st).inputSizes_ =
      sizesOf (sortedConstituents deltaR jet pfCands) ∧
    (fillInputTensors deltaR jet ⟨jets, some pfCands⟩ st).tensorData_ =
      (sizesOf (sortedConstituents deltaR jet pfCands)).map (fun size => List.replicate size 0) := by
  simp [fillInputTensors]

theorem n_bounds (k : Constituents) :
    (1 ≤ n_cpf k ∧ n_cpf k ≤ 29) ∧ (1 ≤ n_lt k ∧ n_lt k ≤ 5) ∧ (1 ≤ n_npf k ∧ n_npf k ≤ 25) := by
  refine ⟨?_, ?_, ?_⟩
  · exact clamp_bounds _ 1 29 (by omega)
  · exact clamp_bounds _ 1 5 (by omega)
  · exact clamp_bounds _ 1 25 (by omega)

theorem sizesOf_eq (k : Constituents) :
    sizesOf k = [n_cpf k * 25, n_lt k * 18, n_npf k * 8, 1 * 14,
      n_cpf k * 4, n_lt k * 4, n_npf k * 4, 1 * 4] := by
  obtain ⟨⟨_, h1⟩, ⟨_, h2⟩, ⟨_, h3⟩⟩ := n_bounds k
  simp only [sizesOf, toUnsigned, cpf_features, lt_features, npf_features, sv_features,
    vec4_features, n_sv]
  have e : ∀ x : Nat, x < 2 ^ 32 → x % 2 ^ 32 = x := fun x hx => Nat.mod_eq_of_lt hx
  rw [e (n_cpf k * 25) (by omega), e (n_lt k * 18) (by omega), e (n_npf k * 8) (by omega),
    e (n_cpf k * 4) (by omega), e (n_lt k * 4) (by omega), e (n_npf k * 4) (by omega),
    e (1 * 14) (by omega), e (1 * 4) (by omega)]

theorem tensorRow_replicate (rows width r : Nat) (h : r < rows) :
    tensorRow (List.replicate (rows * width) 0) width r = List.replicate width 0 := by
  unfold tensorRow
  rw [List.drop_replicate, List.take_replicate]
  congr 1
  have : rows * width - r * width = (rows - r) * width := by rw [Nat.sub_mul]
  rw [this]
  have h1 : 1 ≤ rows - r := by omega
  have : width ≤ (rows - r) * width := Nat.le_mul_of_pos_left width h1
  omega

theorem FloatVal.fin_lt_fin (a b : ℚ) : FloatVal.fin a < FloatVal.fin b ↔ a < b := by
  show FloatVal.lt (.fin a) (.fin b) = true ↔ a < b
  simp [FloatVal.lt]

theorem FloatVal.fin_le_fin (a b : ℚ) : FloatVal.fin a ≤ FloatVal.fin b ↔ a ≤ b := by
  show FloatVal.le (.fin a) (.fin b) = true ↔ a ≤ b
  simp [FloatVal.le]

theorem FloatVal.not_nan_lt (b : FloatVal) : ¬ FloatVal.nan < b := by
  show ¬ FloatVal.lt .nan b = true
  simp [FloatVal.lt]

theorem FloatVal.not_lt_nan (a : FloatVal) : ¬ a < FloatVal.nan := by
  show ¬ FloatVal.lt a .nan = true
  cases a <;> simp [FloatVal.lt]

theorem FloatVal.not_nan_le (b : FloatVal) : ¬ FloatVal.nan ≤ b := by
  show ¬ FloatVal.le .nan b = true
  simp [FloatVal.le]

theorem FloatVal.not_le_nan (a : FloatVal) : ¬ a ≤ FloatVal.nan := by
  show ¬ FloatVal.le a .nan = true
  cases a <;> simp [FloatVal.le]

theorem fabs_fin (q : ℚ) : fabs (.fin q) = .fin |q| := by
  show FloatVal.fin (if q < 0 then -q else q) = .fin |q|
  split
  · rename_i h; rw [abs_of_neg h]
  · rename_i h; rw [abs_of_nonneg (not_lt.mp h)]

/-- The guard of `analyze` lets a jet through iff both of its comparisons are false. -/
theorem skipJet_eq_false_iff (st : UParTEvaluator) (jet : Jet) :
    skipJet st jet = false ↔
      ¬ jet.pt < st.jetPtMin_ ∧ ¬ fabs jet.eta > st.jetEtaMax_ := by
  unfold skipJet
  simp

/-- On numbers the guard of `analyze` is the test `pt >= min` and `|eta| <= max`. -/
theorem skipJet_fin (st : UParTEvaluator) (pt eta lo hi : ℚ) (phi mass : FloatVal)
    (h1 : st.jetPtMin_ = .fin lo) (h2 : st.jetEtaMax_ = .fin hi) :
    skipJet st ⟨.fin pt, .fin eta, phi, mass⟩ = false ↔ pt ≥ lo ∧ |eta| ≤ hi := by
  rw [skipJet_eq_false_iff, h1, h2]
  show ¬ FloatVal.fin pt < FloatVal.fin lo ∧ ¬ FloatVal.fin hi < fabs (FloatVal.fin eta) ↔ _
  rw [fabs_fin, FloatVal.fin_lt_fin, FloatVal.fin_lt_fin, not_lt, not_lt]

/-- A jet that meets `pt >= min` and `|eta| <= max` is let through, NaN or not. -/
theorem skipJet_false_of_ge (st : UParTEvaluator) (jet : Jet)
    (h : jet.pt ≥ st.jetPtMin_ ∧ fabs jet.eta ≤ st.jetEtaMax_) : skipJet st jet = false := by
  obtain ⟨pt, eta, phi, mass⟩ := jet
  obtain ⟨h1, h2⟩ := h
  cases hlo : st.jetPtMin_ with
  | nan => rw [hlo] at h1; exact absurd h1 (FloatVal.not_nan_le _)
  | fin lo =>
    cases hhi : st.jetEtaMax_ with
    | nan => rw [hhi] at h2; exact absurd h2 (FloatVal.not_le_nan _)
    | fin hi =>
      cases pt with
      | nan => rw [hlo] at h1; exact absurd h1 (FloatVal.not_le_nan _)
      | fin pt =>
        cases eta with
        | nan => exact absurd h2 (FloatVal.not_nan_le _)
        | fin eta =>
          rw [skipJet_fin st pt eta lo hi phi mass hlo hhi]
          rw [hlo] at h1
          rw [hhi] at h2
          change FloatVal.fin lo ≤ FloatVal.fin pt at h1
          change fabs (FloatVal.fin eta) ≤ FloatVal.fin hi at h2
          rw [fabs_fin] at h2
          exact ⟨(FloatVal.fin_le_fin _ _).mp h1, (FloatVal.fin_le_fin _ _).mp h2⟩

/-- When the jet's pt and eta and the two limits are numbers, the guard of `analyze` lets the
jet through iff `pt >= min` and `|eta| <= max`. -/
theorem skipJet_eq_false_iff_of_numbers (st : UParTEvaluator) (jet : Jet)
    (h1 : jet.pt ≠ .nan) (h2 : jet.eta ≠ .nan) (h3 : st.jetPtMin_ ≠ .nan)
    (h4 : st.jetEtaMax_ ≠ .nan) :
    skipJet st jet = false ↔ jet.pt ≥ st.jetPtMin_ ∧ fabs jet.eta ≤ st.jetEtaMax_ := by
  refine ⟨?_, skipJet_false_of_ge st jet⟩
  obtain ⟨pt, eta, phi, mass⟩ := jet
  cases hlo : st.jetPtMin_ with
  | nan => exact absurd hlo h3
  | fin lo =>
    cases hhi : st.jetEtaMax_ with
    | nan => exact absurd hhi h4
    | fin hi =>
      cases pt with
      | nan => exact absurd rfl h1
      | fin pt =>
        cases eta with
        | nan => exact absurd rfl h2
        | fin eta =>
          rw [skipJet_fin st pt eta lo hi phi mass hlo hhi]
          intro h
          constructor
          · show FloatVal.fin lo ≤ FloatVal.fin pt
            exact (FloatVal.fin_le_fin _ _).mpr h.1
          · show fabs (FloatVal.fin eta) ≤ FloatVal.fin hi
            rw [fabs_fin]
            exact (FloatVal.fin_le_fin _ _).mpr h.2

theorem skipJet_congr (s st : UParTEvaluator) (jet : Jet) (h1 : s.jetPtMin_ = st.jetPtMin_)
    (h2 : s.jetEtaMax_ = st.jetEtaMax_) : skipJet s jet = skipJet st jet := by
  unfold skipJet
  rw [h1, h2]

theorem processJet_fixed (deltaR : DeltaR) (run : OnnxRun) (jet : Jet) (iEvent : Event)
    (st : UParTEvaluator) :
    (processJet deltaR run jet iEvent st).jetPtMin_ = st.jetPtMin_ ∧
    (processJet deltaR run jet iEvent st).jetEtaMax_ = st.jetEtaMax_ ∧
    (processJet deltaR run jet iEvent st).classNames_ = st.classNames_ := by
  have hp := runInference_snd_fixed deltaR run jet iEvent (jetState jet st)
  have hj := jetState_fixed jet st
  simp only [] at hp
  rw [processJet_eq]
  simp only []
  split <;> simp [hp, hj]

theorem foldl_analyze (deltaR : DeltaR) (run : OnnxRun) (iEvent : Event) (jets : List Jet) :
    ∀ st : UParTEvaluator,
      jets.foldl
        (fun s jet => if skipJet s jet then s else processJet deltaR run jet iEvent s) st =
      (jets.filter (fun jet => !skipJet st jet)).foldl
        (fun s jet => processJet deltaR run jet iEvent s) st := by
  induction jets with
  | nil => intro st; rfl
  | cons jet rest ih =>
    intro st
    rw [List.foldl_cons, List.filter_cons]
    by_cases h : skipJet st jet = false
    · have hf := processJet_fixed deltaR run jet iEvent st
      have hc : (fun j => !skipJet (processJet deltaR run jet iEvent st) j) =
          (fun j => !skipJet st j) := by
        funext j
        rw [skipJet_congr _ st j hf.1 hf.2.1]
      simp only [h, Bool.not_false, if_true, List.foldl_cons, Bool.false_eq_true, if_false]
      rw [ih, hc]
    · have h2 : skipJet st jet = true := by simpa using h
      simp only [h2, if_true, Bool.not_true, Bool.false_eq_true, if_false]
      exact ih st

theorem isLostTrack_iff (deltaR : DeltaR) (jet : Jet) (c : PackedCandidate) :
    isLostTrack deltaR jet c = true ↔
      deltaR jet.eta jet.phi c.eta c.phi ≤ 0.4 ∧ c.charge ≠ 0 ∧ c.hasTrackDetails = true ∧
        c.lostInnerHits > 0 := by
  simp [isLostTrack, inCone, deltaR_max, and_assoc]

theorem isCharged_iff (deltaR : DeltaR) (jet : Jet) (c : PackedCandidate) :
    isCharged deltaR jet c = true ↔
      deltaR jet.eta jet.phi c.eta c.phi ≤ 0.4 ∧ c.charge ≠ 0 ∧ c.hasTrackDetails = true ∧
        c.lostInnerHits ≤ 0 := by
  simp [isCharged, inCone, deltaR_max, and_assoc]

theorem isNeutral_iff (deltaR : DeltaR) (jet : Jet) (c : PackedCandidate) :
    isNeutral deltaR jet c = true ↔
      deltaR jet.eta jet.phi c.eta c.phi ≤ 0.4 ∧ c.charge = 0 := by
  simp [isNeutral, inCone, deltaR_max]

/-- C8: after the three `std::sort` calls of `fillInputTensors`, each category list is ordered
by non-increasing pt (every adjacent pair `(a, b)` has `a.pt >= b.pt`), and holds the same
candidates as before the sort. -/
theorem sorted_lists_nonincreasing_pt (deltaR : DeltaR) (jet : Jet)
    (pfCands : List PackedCandidate) :
    (sortedConstituents deltaR jet pfCands).chargedCands.Chain' (fun a b => a.pt ≥ b.pt) ∧
    (sortedConstituents deltaR jet pfCands).neutralCands.Chain' (fun a b => a.pt ≥ b.pt) ∧
    (sortedConstituents deltaR jet pfCands).lostTracks.Chain' (fun a b => a.pt ≥ b.pt) ∧
    (sortedConstituents deltaR jet pfCands).chargedCands.Perm
      (categorize deltaR jet pfCands).chargedCands ∧
    (sortedConstituents deltaR jet pfCands).neutralCands.Perm
      (categorize deltaR jet pfCands).neutralCands ∧
    (sortedConstituents deltaR jet pfCands).lostTracks.Perm
      (categorize deltaR jet pfCands).lostTracks :=
  ⟨stdSort_ptSort_chain _, stdSort_ptSort_chain _, stdSort_ptSort_chain _,
    stdSort_perm _ _, stdSort_perm _ _, stdSort_perm _ _⟩

theorem categorize_replicate_charged (n : Nat) :
    categorize deltaRZero sampleJet (List.replicate n sampleCharged) =
      ⟨List.replicate n sampleCharged, [], []⟩ := by
  rw [categorize_eq_filter]
  have h1 : isCharged deltaRZero sampleJet sampleCharged = true := by
    rw [isCharged_iff]
    refine ⟨?_, by decide, rfl, by decide⟩
    show (0 : ℚ) ≤ 0.4
    norm_num
  have h2 : isNeutral deltaRZero sampleJet sampleCharged = false := by
    simp [isNeutral, sampleCharged]
  have h3 : isLostTrack deltaRZero sampleJet sampleCharged = false := by
    simp [isLostTrack, sampleCharged]
  simp [List.filter_replicate, h1, h2, h3]

/-- C6: the effective counts that `fillInputTensors` writes into the shapes are the clamp of the
list length, cast to a 32-bit unsigned integer, to the range from 1 to the category maximum
(29 charged, 5 lost tracks, 25 neutral); below `2 ^ 32` the cast changes nothing. With 40
charged candidates in the cone the charged count is 29, and a collection of `n` charged
candidates in the cone gives the clamp of `n` (cast) for every `n`. -/
theorem effective_count_clamp (deltaR : DeltaR) (jet : Jet) (jets : Option (List Jet))
    (pfCands : List PackedCandidate) (st : UParTEvaluator) :
    (fillInputTensors deltaR jet ⟨jets, some pfCands⟩ st).inputShapes_.map (fun s => s.getD 1 0) =
      [(specClamp ((categorize deltaR jet pfCands).chargedCands.length % 2 ^ 32) 1 29 : Int),
       (specClamp ((categorize deltaR jet pfCands).lostTracks.length % 2 ^ 32) 1 5 : Int),
       (specClamp ((categorize deltaR jet pfCands).neutralCands.length % 2 ^ 32) 1 25 : Int),
       1,
       (specClamp ((categorize deltaR jet pfCands).chargedCands.length % 2 ^ 32) 1 29 : Int),
       (specClamp ((categorize deltaR jet pfCands).lostTracks.length % 2 ^ 32) 1 5 : Int),
       (specClamp ((categorize deltaR jet pfCands).neutralCands.length % 2 ^ 32) 1 25 : Int),
       1] ∧
    (∀ len : Nat, len < 2 ^ 32 → ∀ hi : Nat, 1 ≤ hi →
      clamp (toUnsigned len) 1 hi = specClamp len 1 hi) ∧
    ((categorize deltaR jet pfCands).chargedCands.length = 40 →
      (fillInputTensors deltaR jet ⟨jets, some pfCands⟩ st).inputShapes_.getD 0 [] =
        [1, 29, 25]) ∧
    (∀ n : Nat,
      (fillInputTensors deltaRZero sampleJet ⟨jets, some (List.replicate n sampleCharged)⟩
        st).inputShapes_.getD 0 [] = [1, (specClamp (n % 2 ^ 32) 1 29 : Int), 25]) := by
  have hl := sortedConstituents_length deltaR jet pfCands
  have hv := (fillInputTensors_valid deltaR jet jets pfCands st).1
  have e1 : n_cpf (sortedConstituents deltaR jet pfCands) =
      specClamp ((categorize deltaR jet pfCands).chargedCands.length % 2 ^ 32) 1 29 := by
    rw [← hl.1]; exact clamp_eq_specClamp _ 1 29 (by omega)
  have e2 : n_lt (sortedConstituents deltaR jet pfCands) =
      specClamp ((categorize deltaR jet pfCands).lostTracks.length % 2 ^ 32) 1 5 := by
    rw [← hl.2.2]; exact clamp_eq_specClamp _ 1 5 (by omega)
  have e3 : n_npf (sortedConstituents deltaR jet pfCands) =
      specClamp ((categorize deltaR jet pfCands).neutralCands.length % 2 ^ 32) 1 25 := by
    rw [← hl.2.1]; exact clamp_eq_specClamp _ 1 25 (by omega)
  refine ⟨?_, ?_, ?_, ?_⟩
  · rw [hv]
    simp [shapesOf, e1, e2, e3, n_sv]
  · intro len hlen hi hhi
    rw [toUnsigned, Nat.mod_eq_of_lt hlen]
    exact clamp_eq_specClamp _ 1 hi hhi
  · intro h40
    rw [hv]
    simp [shapesOf, e1, h40, specClamp, cpf_features]
  · intro n
    have hn : n_cpf (sortedConstituents deltaRZero sampleJet (List.replicate n sampleCharged)) =
        specClamp (n % 2 ^ 32) 1 29 := by
      unfold n_cpf toUnsigned
      rw [(sortedConstituents_length _ _ _).1, categorize_replicate_charged,
        List.length_replicate]
      exact clamp_eq_specClamp _ 1 29 (by omega)
    rw [(fillInputTensors_valid deltaRZero sampleJet jets (List.replicate n sampleCharged) st).1]
    simp [shapesOf, hn, cpf_features]

/-- Witness for C6: forty charged candidates on the jet axis. -/
theorem effective_count_clamp_witness :
    (categorize deltaRZero sampleJet (List.replicate 40 sampleCharged)).chargedCands.length = 40 ∧
    (fillInputTensors deltaRZero sampleJet ⟨none, some (List.replicate 40 sampleCharged)⟩
      (UParTEvaluator.new 20 2.4 0)).inputShapes_.getD 0 [] = [1, 29, 25] ∧
    (40 < 2 ^ 32 ∧ 1 ≤ 29) ∧ clamp (toUnsigned 40) 1 29 = specClamp 40 1 29 :=
  ⟨by rw [categorize_replicate_charged]; simp,
    (effective_count_clamp deltaRZero sampleJet none (List.replicate 40 sampleCharged)
      (UParTEvaluator.new 20 2.4 0)).2.2.1 (by rw [categorize_replicate_charged]; simp),
    ⟨by norm_num, by norm_num⟩,
    (effective_count_clamp deltaRZero sampleJet none (List.replicate 40 sampleCharged)
      (UParTEvaluator.new 20 2.4 0)).2.1 40 (by norm_num) 29 (by norm_num)⟩

/-- C7: after `fillInputTensors` on a valid candidate collection there are 8 shapes and 8 sizes;
every shape is `[1, n, width]` with `1 <= n <=` the category maximum (29, 5, 25, and exactly 1 for
the vertices), the widths are 25, 18, 8, 14 for the feature tensors and 4 for the four-vector
tensors, the two tensors of a category share `n`, and each size is `n * width`. -/
theorem shapes_and_sizes_well_formed (deltaR : DeltaR) (jet : Jet) (jets : Option (List Jet))
    (pfCands : List PackedCandidate) (st : UParTEvaluator) :
    (fillInputTensors deltaR jet ⟨jets, some pfCands⟩ st).inputShapes_.length = 8 ∧
    (fillInputTensors deltaR jet ⟨jets, some pfCands⟩ st).inputSizes_.length = 8 ∧
    ∃ a b c : Nat, (1 ≤ a ∧ a ≤ 29) ∧ (1 ≤ b ∧ b ≤ 5) ∧ (1 ≤ c ∧ c ≤ 25) ∧
      (fillInputTensors deltaR jet ⟨jets, some pfCands⟩ st).inputShapes_ =
        [[1, (a : Int), 25], [1, (b : Int), 18], [1, (c : Int), 8], [1, 1, 14],
         [1, (a : Int), 4], [1, (b : Int), 4], [1, (c : Int), 4], [1, 1, 4]] ∧
      (fillInputTensors deltaR jet ⟨jets, some pfCands⟩ st).inputSizes_ =
        [a * 25, b * 18, c * 8, 1 * 14, a * 4, b * 4, c * 4, 1 * 4] := by
  obtain ⟨hs, hz, _⟩ := fillInputTensors_valid deltaR jet jets pfCands st
  refine ⟨by rw [hs]; rfl, by rw [hz]; rfl,
    n_cpf (sortedConstituents deltaR jet pfCands), n_lt (sortedConstituents deltaR jet pfCands),
    n_npf (sortedConstituents deltaR jet pfCands), ?_⟩
  obtain ⟨h1, h2, h3⟩ := n_bounds (sortedConstituents deltaR jet pfCands)
  refine ⟨h1, h2, h3, ?_, ?_⟩
  · rw [hs]
    simp [shapesOf, cpf_features, lt_features, npf_features, sv_features, vec4_features, n_sv]
  · rw [hz, sizesOf_eq]

/-- C9 (as amended): on a valid jet collection `analyze` visits the jets in collection order and
hands to `processJet` exactly the jets for which the guard `pt < jetPtMin || |eta| > jetEtaMax`
is false; a jet the guard rejects leaves the state untouched. Every jet with `pt >= jetPtMin` and
`|eta| <= jetEtaMax` is handed over, and when pt, eta and the two limits are numbers these are
the only ones. With the limits 20 and 2.4 a jet with pt 50 and eta 1 is processed and a jet with
pt 10 is skipped. -/
theorem analyze_selects_jets (deltaR : DeltaR) (run : OnnxRun) (jets : List Jet)
    (pfCands : Option (List PackedCandidate)) (st : UParTEvaluator) :
    analyze deltaR run ⟨some jets, pfCands⟩ st =
      (jets.filter (fun jet => !skipJet st jet)).foldl
        (fun s jet => processJet deltaR run jet ⟨some jets, pfCands⟩ s)
        (st.call (.logInfo "Processing jets in event ")) ∧
    (∀ jet : Jet, skipJet st jet = false ↔
      ¬ jet.pt < st.jetPtMin_ ∧ ¬ fabs jet.eta > st.jetEtaMax_) ∧
    (∀ jet : Jet, jet.pt ≥ st.jetPtMin_ ∧ fabs jet.eta ≤ st.jetEtaMax_ →
      skipJet st jet = false) ∧
    (∀ jet : Jet, jet.pt ≠ .nan → jet.eta ≠ .nan → st.jetPtMin_ ≠ .nan →
      st.jetEtaMax_ ≠ .nan →
      (skipJet st jet = false ↔ jet.pt ≥ st.jetPtMin_ ∧ fabs jet.eta ≤ st.jetEtaMax_)) ∧
    (∀ (pt eta lo hi : ℚ) (phi mass : FloatVal), st.jetPtMin_ = .fin lo →
      st.jetEtaMax_ = .fin hi →
      (skipJet st ⟨.fin pt, .fin eta, phi, mass⟩ = false ↔ pt ≥ lo ∧ |eta| ≤ hi)) ∧
    (∀ phi mass uninit : FloatVal,
      analyze deltaR run ⟨some [⟨50, 1, phi, mass⟩], pfCands⟩ (UParTEvaluator.new 20 2.4 uninit) =
        processJet deltaR run ⟨50, 1, phi, mass⟩ ⟨some [⟨50, 1, phi, mass⟩], pfCands⟩
          ((UParTEvaluator.new 20 2.4 uninit).call (.logInfo "Processing jets in event "))) ∧
    (∀ eta phi mass uninit : FloatVal,
      analyze deltaR run ⟨some [⟨10, eta, phi, mass⟩], pfCands⟩ (UParTEvaluator.new 20 2.4 uninit) =
        (UParTEvaluator.new 20 2.4 uninit).call (.logInfo "Processing jets in event ")) := by
  refine ⟨?_, skipJet_eq_false_iff st, skipJet_false_of_ge st,
    skipJet_eq_false_iff_of_numbers st, ?_, ?_, ?_⟩
  · unfold analyze
    simp only []
    rw [foldl_analyze]
    have hc : (fun j => !skipJet (st.call (.logInfo "Processing jets in event ")) j) =
        (fun j => !skipJet st j) := by
      funext j
      exact congrArg (fun b => !b) (skipJet_congr _ st j rfl rfl)
    rw [hc]
  · intro pt eta lo hi phi mass h1 h2
    exact skipJet_fin st pt eta lo hi phi mass h1 h2
  · intro phi mass uninit
    have h : skipJet ((UParTEvaluator.new 20 2.4 uninit).call (.logInfo "Processing jets in event "))
        ⟨50, 1, phi, mass⟩ = false := by
      rw [show (⟨50, 1, phi, mass⟩ : Jet) = ⟨.fin 50, .fin 1, phi, mass⟩ from rfl,
        skipJet_fin _ 50 1 20 2.4 phi mass rfl rfl]
      norm_num [abs_of_pos]
    simp [analyze, h]
  · intro eta phi mass uninit
    have h : skipJet ((UParTEvaluator.new 20 2.4 uninit).call (.logInfo "Processing jets in event "))
        ⟨10, eta, phi, mass⟩ = true := by
      have hlt : (10 : FloatVal) < 20 := by
        show FloatVal.fin 10 < FloatVal.fin 20
        rw [FloatVal.fin_lt_fin]
        norm_num
      show (decide ((10 : FloatVal) < 20) || _) = true
      simp [hlt]
    simp [analyze, h]

/-- Witness for C9: the constructor state with the limits 20 and 2.4 and a jet with pt 50 and
eta 1. -/
theorem analyze_selects_jets_witness :
    (sampleJet.pt ≠ .nan ∧ sampleJet.eta ≠ .nan ∧
      (UParTEvaluator.new 20 2.4 0).jetPtMin_ ≠ .nan ∧
      (UParTEvaluator.new 20 2.4 0).jetEtaMax_ ≠ .nan) ∧
    (skipJet (UParTEvaluator.new 20 2.4 0) sampleJet = false ↔
      sampleJet.pt ≥ (UParTEvaluator.new 20 2.4 0).jetPtMin_ ∧
        fabs sampleJet.eta ≤ (UParTEvaluator.new 20 2.4 0).jetEtaMax_) ∧
    ((UParTEvaluator.new 20 2.4 0).jetPtMin_ = .fin 20 ∧
      (UParTEvaluator.new 20 2.4 0).jetEtaMax_ = .fin 2.4) ∧
    (skipJet (UParTEvaluator.new 20 2.4 0) ⟨.fin 50, .fin 1, 0, 10⟩ = false ↔
      (50 : ℚ) ≥ 20 ∧ |(1 : ℚ)| ≤ 2.4) :=
  ⟨⟨fun h => FloatVal.noConfusion h, fun h => FloatVal.noConfusion h,
      fun h => FloatVal.noConfusion h, fun h => FloatVal.noConfusion h⟩,
    (analyze_selects_jets deltaRZero faultRun [sampleJet] (some []) (UParTEvaluator.new 20 2.4 0)
      ).2.2.2.1 sampleJet (fun h => FloatVal.noConfusion h) (fun h => FloatVal.noConfusion h)
        (fun h => FloatVal.noConfusion h) (fun h => FloatVal.noConfusion h),
    ⟨rfl, rfl⟩,
    (analyze_selects_jets deltaRZero faultRun [sampleJet] (some []) (UParTEvaluator.new 20 2.4 0)
      ).2.2.2.2.1 50 1 20 2.4 0 10 rfl rfl⟩

theorem categorize_outside_cone (deltaR : DeltaR) (jet : Jet) (pfCands : List PackedCandidate)
    (h : ∀ c ∈ pfCands, deltaR jet.eta jet.phi c.eta c.phi > 0.4) :
    categorize deltaR jet pfCands = ⟨[], [], []⟩ := by
  rw [categorize_eq_filter]
  have h1 : pfCands.filter (isCharged deltaR jet) = [] := by
    rw [List.filter_eq_nil_iff]
    intro c hc hp
    exact not_le.mpr (h c hc) ((isCharged_iff deltaR jet c).mp hp).1
  have h2 : pfCands.filter (isNeutral deltaR jet) = [] := by
    rw [List.filter_eq_nil_iff]
    intro c hc hp
    exact not_le.mpr (h c hc) ((isNeutral_iff deltaR jet c).mp hp).1
  have h3 : pfCands.filter (isLostTrack deltaR jet) = [] := by
    rw [List.filter_eq_nil_iff]
    intro c hc hp
    exact not_le.mpr (h c hc) ((isLostTrack_iff deltaR jet c).mp hp).1
  rw [h1, h2, h3]

theorem sortedConstituents_outside_cone (deltaR : DeltaR) (jet : Jet)
    (pfCands : List PackedCandidate)
    (h : ∀ c ∈ pfCands, deltaR jet.eta jet.phi c.eta c.phi > 0.4) :
    sortedConstituents deltaR jet pfCands = ⟨[], [], []⟩ := by
  unfold sortedConstituents
  simp only []
  rw [categorize_outside_cone deltaR jet pfCands h]
  rfl

/-- C10: after `fillInputTensors` on a valid candidate collection, whatever the tensor state
before, `tensorData_` holds 8 buffers, buffer `i` has the length `inputSizes_[i]`, and every
entry is zero, so every row at an index not below the number of real candidates is all zero.
With no candidate in the cone every effective count is 1 and the buffers are eight all-zero
lists of lengths 25, 18, 8, 14, 4, 4, 4, 4. -/
theorem buffers_zero_initialised (deltaR : DeltaR) (jet : Jet) (jets : Option (List Jet))
    (pfCands : List PackedCandidate) (st : UParTEvaluator) :
    (fillInputTensors deltaR jet ⟨jets, some pfCands⟩ st).tensorData_.length = 8 ∧
    (fillInputTensors deltaR jet ⟨jets, some pfCands⟩ st).tensorData_.map List.length =
      (fillInputTensors deltaR jet ⟨jets, some pfCands⟩ st).inputSizes_ ∧
    (∀ buf ∈ (fillInputTensors deltaR jet ⟨jets, some pfCands⟩ st).tensorData_,
      ∀ x ∈ buf, x = 0) ∧
    (∀ i r : Nat, i < 8 →
      (realCounts (sortedConstituents deltaR jet pfCands)).getD i 0 ≤ r →
      (r : Int) < ((fillInputTensors deltaR jet ⟨jets, some pfCands⟩ st).inputShapes_.getD i []).getD
        1 0 →
      tensorRow ((fillInputTensors deltaR jet ⟨jets, some pfCands⟩ st).tensorData_.getD i [])
          ([25, 18, 8, 14, 4, 4, 4, 4].getD i 0) r =
        List.replicate ([25, 18, 8, 14, 4, 4, 4, 4].getD i 0) 0) ∧
    ((∀ c ∈ pfCands, deltaR jet.eta jet.phi c.eta c.phi > 0.4) →
      (fillInputTensors deltaR jet ⟨jets, some pfCands⟩ st).inputShapes_ =
        [[1, 1, 25], [1, 1, 18], [1, 1, 8], [1, 1, 14], [1, 1, 4], [1, 1, 4], [1, 1, 4],
          [1, 1, 4]] ∧
      (fillInputTensors deltaR jet ⟨jets, some pfCands⟩ st).tensorData_ =
        [List.replicate 25 0, List.replicate 18 0, List.replicate 8 0, List.replicate 14 0,
          List.replicate 4 0, List.replicate 4 0, List.replicate 4 0, List.replicate 4 0]) := by
  obtain ⟨hs, hz, ht⟩ := fillInputTensors_valid deltaR jet jets pfCands st
  refine ⟨?_, ?_, ?_, ?_, ?_⟩
  · rw [ht]; simp [sizesOf]
  · rw [ht, hz]; simp [sizesOf]
  · rw [ht]
    intro buf hbuf x hx
    obtain ⟨size, _, rfl⟩ := List.mem_map.mp hbuf
    exact (List.mem_replicate.mp hx).2
  · intro i r hi _ hr
    rw [hs] at hr
    rw [ht, sizesOf_eq]
    interval_cases i
    all_goals simp only [List.getD_cons_zero, List.getD_cons_succ, List.map_cons, shapesOf,
      n_sv] at hr ⊢
    all_goals apply tensorRow_replicate
    all_goals omega
  · intro h
    rw [hs, ht, sortedConstituents_outside_cone deltaR jet pfCands h]
    constructor
    · simp [shapesOf, n_cpf, n_lt, n_npf, n_sv, clamp, toUnsigned, cpf_features, lt_features,
        npf_features, sv_features, vec4_features]
    · simp [sizesOf, n_cpf, n_lt, n_npf, n_sv, clamp, toUnsigned, cpf_features, lt_features,
        npf_features, sv_features, vec4_features]

theorem sampleCharged_outside :
    ∀ c ∈ [sampleCharged], deltaROne sampleJet.eta sampleJet.phi c.eta c.phi > 0.4 := by
  intro c _
  show (1 : ℚ) > 0.4
  norm_num

/-- Witness for C10: a jet whose only candidate lies outside the cone, entered with buffers
left by an earlier jet. -/
theorem buffers_zero_initialised_witness :
    (∀ c ∈ [sampleCharged], deltaROne sampleJet.eta sampleJet.phi c.eta c.phi > 0.4) ∧
    (fillInputTensors deltaROne sampleJet ⟨none, some [sampleCharged]⟩
      (staleState [[7, 7]] [[1, 2, 1]])).tensorData_ =
        [List.replicate 25 0, List.replicate 18 0, List.replicate 8 0, List.replicate 14 0,
          List.replicate 4 0, List.replicate 4 0, List.replicate 4 0, List.replicate 4 0] ∧
    tensorRow ((fillInputTensors deltaROne sampleJet ⟨none, some [sampleCharged]⟩
        (staleState [[7, 7]] [[1, 2, 1]])).tensorData_.getD 0 []) 25 0 = List.replicate 25 0 :=
  ⟨sampleCharged_outside,
    ((buffers_zero_initialised deltaROne sampleJet none [sampleCharged]
      (staleState [[7, 7]] [[1, 2, 1]])).2.2.2.2 sampleCharged_outside).2,
    (buffers_zero_initialised deltaROne sampleJet none [sampleCharged]
      (staleState [[7, 7]] [[1, 2, 1]])).2.2.2.1 0 0 (by omega)
      (by rw [sortedConstituents_outside_cone _ _ _ sampleCharged_outside]; simp [realCounts])
      (by
        rw [((buffers_zero_initialised deltaROne sampleJet none [sampleCharged]
          (staleState [[7, 7]] [[1, 2, 1]])).2.2.2.2 sampleCharged_outside).1]
        simp)⟩

theorem classNames_length : classNames.length = 30 := by decide

theorem sentinel_eq (st : UParTEvaluator) :
    sentinel st = List.replicate st.classNames_.length (-1) := rfl

/-- The calls `processJet` makes, in program order. -/
theorem processJet_calls (deltaR : DeltaR) (run : OnnxRun) (jet : Jet) (iEvent : Event)
    (st : UParTEvaluator) :
    (processJet deltaR run jet iEvent st).calls =
      st.calls ++ [.jetPtHistFill jet.pt, .jetEtaHistFill jet.eta, fillInputTensorsLog iEvent,
        modelCall deltaR jet iEvent st] ++
      resultLog (modelOutcome deltaR run jet iEvent st) ++
      (if (runInference deltaR run jet iEvent st).1.length = st.classNames_.length then
        recordCalls st.classNames_ jet (runInference deltaR run jet iEvent st).1
      else [.logWarning "Unexpected prediction size: "]) := by
  rw [processJet_eq]
  simp only []
  rw [runInference_fst_jetState]
  split
  · simp [runInference_snd_calls, modelCall_jetState, modelOutcome_jetState,
      (jetState_fixed jet st).2.2.2.2.2.2.2.2.2.2.2.2.2, runInference_fst_jetState]
  · simp [runInference_snd_calls, modelCall_jetState, modelOutcome_jetState,
      (jetState_fixed jet st).2.2.2.2.2.2.2.2.2.2.2.2.2]

theorem processJet_upart_probs (deltaR : DeltaR) (run : OnnxRun) (jet : Jet) (iEvent : Event)
    (st : UParTEvaluator) :
    (processJet deltaR run jet iEvent st).upart_probs_ =
      if (runInference deltaR run jet iEvent st).1.length = st.classNames_.length then
        (runInference deltaR run jet iEvent st).1
      else st.upart_probs_ := by
  have hp := runInference_snd_fixed deltaR run jet iEvent (jetState jet st)
  simp only [] at hp
  rw [processJet_eq]
  simp only []
  rw [runInference_fst_jetState]
  split
  · rfl
  · simp [hp, (jetState_fixed jet st).2.1]

theorem filter_resultLog (r : Except String FloatArrays) :
    (resultLog r).filter Call.isSink = [] ∧ (resultLog r).filter Call.isScoreSink = [] ∧
    (resultLog r).filter Call.isTreeFill = [] ∧ (resultLog r).filter Call.isOnnxRun = [] := by
  rcases r with e | (_ | ⟨out0, t⟩)
  · simp [resultLog, Call.isSink, Call.isScoreSink, Call.isTreeFill, Call.isOnnxRun]
  · simp [resultLog, Call.isSink, Call.isScoreSink, Call.isTreeFill, Call.isOnnxRun]
  · by_cases h : out0 = [] <;>
      simp [resultLog, h, Call.isSink, Call.isScoreSink, Call.isTreeFill, Call.isOnnxRun]

theorem fillInputTensorsLog_kind (iEvent : Event) :
    (fillInputTensorsLog iEvent).isSink = false ∧
    (fillInputTensorsLog iEvent).isScoreSink = false ∧
    (fillInputTensorsLog iEvent).isTreeFill = false ∧
    (fillInputTensorsLog iEvent).isOnnxRun = false := by
  unfold fillInputTensorsLog
  cases iEvent.pfCands <;> simp [Call.isSink, Call.isScoreSink, Call.isTreeFill, Call.isOnnxRun]

theorem modelCall_kind (deltaR : DeltaR) (jet : Jet) (iEvent : Event) (st : UParTEvaluator) :
    (modelCall deltaR jet iEvent st).isSink = false ∧
    (modelCall deltaR jet iEvent st).isScoreSink = false ∧
    (modelCall deltaR jet iEvent st).isTreeFill = false ∧
    (modelCall deltaR jet iEvent st).isOnnxRun = true := by
  simp [modelCall, Call.isSink, Call.isScoreSink, Call.isTreeFill, Call.isOnnxRun]

theorem filter_probHistCalls (names : List String) (p : List ℚ) :
    (probHistCalls names p).filter Call.isTreeFill = [] ∧
    (probHistCalls names p).filter Call.isOnnxRun = [] := by
  constructor <;>
  · rw [List.filter_eq_nil_iff]
    intro c hc
    obtain ⟨i, _, rfl⟩ := List.mem_map.mp hc
    simp [Call.isTreeFill, Call.isOnnxRun]

theorem filter_recordCalls (names : List String) (jet : Jet) (p : List ℚ) :
    (recordCalls names jet p).filter Call.isTreeFill =
      [.outputTreeFill jet.pt jet.eta jet.phi jet.mass p] ∧
    (recordCalls names jet p).filter Call.isOnnxRun = [] := by
  unfold recordCalls
  by_cases h : p.isEmpty = true <;>
    simp [List.filter_append, filter_probHistCalls, h, Call.isTreeFill, Call.isOnnxRun]

/-- C1 (as amended): `runInference` returns the sentinel, `classNames_.size()` entries all equal
to -1, whenever the model call raises a fault, returns no output tensor, or returns an empty
first output tensor. A non-empty first output tensor is returned as it is, whatever its length. -/
theorem runInference_sentinel (deltaR : DeltaR) (run : OnnxRun) (jet : Jet) (iEvent : Event)
    (st : UParTEvaluator) :
    (((∃ e, modelOutcome deltaR run jet iEvent st = .error e) ∨
        modelOutcome deltaR run jet iEvent st = .ok [] ∨
        (∃ rest, modelOutcome deltaR run jet iEvent st = .ok ([] :: rest))) →
      (runInference deltaR run jet iEvent st).1 = List.replicate st.classNames_.length (-1) ∧
      (runInference deltaR run jet iEvent st).1.length = st.classNames_.length ∧
      ∀ x ∈ (runInference deltaR run jet iEvent st).1, x = -1) ∧
    (∀ out0 rest, modelOutcome deltaR run jet iEvent st = .ok (out0 :: rest) → out0 ≠ [] →
      (runInference deltaR run jet iEvent st).1 = out0) := by
  constructor
  · intro h
    have hs : (runInference deltaR run jet iEvent st).1 =
        List.replicate st.classNames_.length (-1) := by
      rw [runInference_fst]
      rcases h with ⟨e, h⟩ | h | ⟨rest, h⟩ <;> rw [h] <;> simp [resultOf, sentinel_eq]
    refine ⟨hs, ?_, ?_⟩
    · rw [hs, List.length_replicate]
    · rw [hs]
      intro x hx
      exact (List.mem_replicate.mp hx).2
  · intro out0 rest h hne
    rw [runInference_fst, h]
    simp [resultOf, hne]

/-- Witness for C1: a model call that raises a fault, and a model call that returns a non-empty
first output tensor. -/
theorem runInference_sentinel_witness :
    ((∃ e, modelOutcome deltaRZero faultRun sampleJet sampleEvent (UParTEvaluator.new 20 2.4 0) =
        .error e) ∨
      modelOutcome deltaRZero faultRun sampleJet sampleEvent (UParTEvaluator.new 20 2.4 0) =
        .ok [] ∨
      (∃ rest, modelOutcome deltaRZero faultRun sampleJet sampleEvent
        (UParTEvaluator.new 20 2.4 0) = .ok ([] :: rest))) ∧
    (runInference deltaRZero faultRun sampleJet sampleEvent (UParTEvaluator.new 20 2.4 0)).1 =
      List.replicate (UParTEvaluator.new 20 2.4 0).classNames_.length (-1) ∧
    (modelOutcome deltaRZero shortRun sampleJet sampleEvent (UParTEvaluator.new 20 2.4 0) =
        .ok ([1 / 2] :: []) ∧ ([1 / 2] : List ℚ) ≠ []) ∧
    (runInference deltaRZero shortRun sampleJet sampleEvent (UParTEvaluator.new 20 2.4 0)).1 =
      [1 / 2] :=
  ⟨Or.inl ⟨"fault", rfl⟩,
    ((runInference_sentinel deltaRZero faultRun sampleJet sampleEvent
      (UParTEvaluator.new 20 2.4 0)).1 (Or.inl ⟨"fault", rfl⟩)).1,
    ⟨rfl, by simp⟩,
    (runInference_sentinel deltaRZero shortRun sampleJet sampleEvent
      (UParTEvaluator.new 20 2.4 0)).2 [1 / 2] [] rfl (by simp)⟩

/-- C1, counterexample: the model returns a first output tensor with one score, shorter than the
30 class names; `runInference` returns that tensor, not a sentinel of 30 entries. -/
theorem runInference_short_output_counterexample :
    modelOutcome deltaRZero shortRun sampleJet sampleEvent (UParTEvaluator.new 20 2.4 0) =
      .ok [[1 / 2]] ∧
    ([1 / 2] : List ℚ).length < (UParTEvaluator.new 20 2.4 0).classNames_.length ∧
    (runInference deltaRZero shortRun sampleJet sampleEvent (UParTEvaluator.new 20 2.4 0)).1 =
      [1 / 2] ∧
    ¬ ((runInference deltaRZero shortRun sampleJet sampleEvent
          (UParTEvaluator.new 20 2.4 0)).1.length =
        (UParTEvaluator.new 20 2.4 0).classNames_.length ∧
      ∀ x ∈ (runInference deltaRZero shortRun sampleJet sampleEvent
          (UParTEvaluator.new 20 2.4 0)).1, x = -1) := by
  have hr : (runInference deltaRZero shortRun sampleJet sampleEvent
      (UParTEvaluator.new 20 2.4 0)).1 = [1 / 2] := by
    rw [runInference_fst]
    show resultOf _ (Except.ok [[1 / 2]]) = _
    simp [resultOf]
  refine ⟨rfl, ?_, hr, ?_⟩
  · show 1 < classNames.length
    rw [classNames_length]; omega
  · rw [hr]
    rintro ⟨h, _⟩
    have : (UParTEvaluator.new 20 2.4 0).classNames_.length = 30 := classNames_length
    rw [this] at h
    simp at h

/-- C2 (as amended): when the model call raises a fault for a jet, `runInference` returns exactly
30 entries of -1 (30 is the length of the class-name list of the constructor), and `processJet`
still emits the record: `upart_probs_` becomes the sentinel and the output tree receives exactly
one row, carrying the jet kinematics and the sentinel. -/
theorem processJet_fault_emits_sentinel (deltaR : DeltaR) (run : OnnxRun) (jet : Jet)
    (iEvent : Event) (st : UParTEvaluator) (e : String) (hc : st.classNames_ = classNames)
    (hf : modelOutcome deltaR run jet iEvent st = .error e) :
    (runInference deltaR run jet iEvent st).1 = List.replicate 30 (-1) ∧
    (processJet deltaR run jet iEvent st).upart_probs_ = List.replicate 30 (-1) ∧
    (processJet deltaR run jet iEvent st).calls.filter Call.isTreeFill =
      st.calls.filter Call.isTreeFill ++
        [.outputTreeFill jet.pt jet.eta jet.phi jet.mass (List.replicate 30 (-1))] := by
  have hn : st.classNames_.length = 30 := by rw [hc]; exact classNames_length
  have hr : (runInference deltaR run jet iEvent st).1 = List.replicate 30 (-1) := by
    rw [runInference_fst, hf]
    simp [resultOf, sentinel_eq, hn]
  refine ⟨hr, ?_, ?_⟩
  · rw [processJet_upart_probs, hr, hn]
    simp
  · rw [processJet_calls, hr, hn]
    simp only [List.filter_append, List.filter_cons, List.filter_nil, (filter_resultLog _).2.2.1,
      (fillInputTensorsLog_kind iEvent).2.2.1, (modelCall_kind deltaR jet iEvent st).2.2.1,
      (filter_recordCalls _ _ _).1, List.length_replicate, if_true]
    simp [Call.isTreeFill]

/-- Witness for C2: the constructor state and a model call that raises a fault. -/
theorem processJet_fault_emits_sentinel_witness :
    (UParTEvaluator.new 20 2.4 0).classNames_ = classNames ∧
    modelOutcome deltaRZero faultRun sampleJet sampleEvent (UParTEvaluator.new 20 2.4 0) =
      .error "fault" ∧
    (processJet deltaRZero faultRun sampleJet sampleEvent (UParTEvaluator.new 20 2.4 0)).upart_probs_ =
      List.replicate 30 (-1) :=
  ⟨rfl, rfl, (processJet_fault_emits_sentinel deltaRZero faultRun sampleJet sampleEvent
    (UParTEvaluator.new 20 2.4 0) "fault" rfl rfl).2.1⟩

/-- C2, counterexample: with the class-name list of the constructor and a model call that raises
a fault, the vector `runInference` returns has 30 entries, so it is not 29 entries of -1. -/
theorem sentinel_length_counterexample :
    modelOutcome deltaRZero faultRun sampleJet sampleEvent (UParTEvaluator.new 20 2.4 0) =
      .error "fault" ∧
    (UParTEvaluator.new 20 2.4 0).classNames_.length = 30 ∧
    (runInference deltaRZero faultRun sampleJet sampleEvent
      (UParTEvaluator.new 20 2.4 0)).1.length = 30 ∧
    (runInference deltaRZero faultRun sampleJet sampleEvent (UParTEvaluator.new 20 2.4 0)).1 ≠
      List.replicate 29 (-1) := by
  have hr : (runInference deltaRZero faultRun sampleJet sampleEvent
      (UParTEvaluator.new 20 2.4 0)).1 = List.replicate 30 (-1) := by
    rw [runInference_fst]
    show resultOf _ (Except.error "fault") = _
    simp [resultOf, sentinel_eq, UParTEvaluator.new, classNames_length]
  refine ⟨rfl, classNames_length, ?_, ?_⟩
  · rw [hr, List.length_replicate]
  · rw [hr]
    intro h
    have := congrArg List.length h
    simp at this

/-- C3 (as amended): when the inference result of a jet has a length different from the
class-name list, `processJet` leaves `upart_probs_` unchanged and makes no call on the per-class
score histograms, the pt-vs-score histogram or the output tree; the jet-pt and jet-eta
histograms, filled before the inference, each receive one call. -/
theorem processJet_length_mismatch (deltaR : DeltaR) (run : OnnxRun) (jet : Jet)
    (iEvent : Event) (st : UParTEvaluator)
    (h : (runInference deltaR run jet iEvent st).1.length ≠ st.classNames_.length) :
    (processJet deltaR run jet iEvent st).upart_probs_ = st.upart_probs_ ∧
    (processJet deltaR run jet iEvent st).calls.filter Call.isScoreSink =
      st.calls.filter Call.isScoreSink ∧
    (processJet deltaR run jet iEvent st).calls.filter Call.isSink =
      st.calls.filter Call.isSink ++ [.jetPtHistFill jet.pt, .jetEtaHistFill jet.eta] := by
  refine ⟨?_, ?_, ?_⟩
  · rw [processJet_upart_probs, if_neg h]
  · rw [processJet_calls, if_neg h]
    simp only [List.filter_append, List.filter_cons, List.filter_nil, (filter_resultLog _).2.1,
      (fillInputTensorsLog_kind iEvent).2.1, (modelCall_kind deltaR jet iEvent st).2.1]
    simp [Call.isScoreSink]
  · rw [processJet_calls, if_neg h]
    simp only [List.filter_append, List.filter_cons, List.filter_nil, (filter_resultLog _).1,
      (fillInputTensorsLog_kind iEvent).1, (modelCall_kind deltaR jet iEvent st).1]
    simp [Call.isSink]

theorem shortRun_result :
    (runInference deltaRZero shortRun sampleJet sampleEvent (UParTEvaluator.new 20 2.4 0)).1 =
      [1 / 2] := by
  rw [runInference_fst]
  show resultOf _ (Except.ok [[1 / 2]]) = _
  simp [resultOf]

theorem shortRun_mismatch :
    (runInference deltaRZero shortRun sampleJet sampleEvent
      (UParTEvaluator.new 20 2.4 0)).1.length ≠ (UParTEvaluator.new 20 2.4 0).classNames_.length := by
  rw [shortRun_result]
  show 1 ≠ classNames.length
  rw [classNames_length]; omega

/-- Witness for C3: a model that returns a single score. -/
theorem processJet_length_mismatch_witness :
    (runInference deltaRZero shortRun sampleJet sampleEvent
      (UParTEvaluator.new 20 2.4 0)).1.length ≠ (UParTEvaluator.new 20 2.4 0).classNames_.length ∧
    (processJet deltaRZero shortRun sampleJet sampleEvent (UParTEvaluator.new 20 2.4 0)).upart_probs_ =
      (UParTEvaluator.new 20 2.4 0).upart_probs_ :=
  ⟨shortRun_mismatch, (processJet_length_mismatch deltaRZero shortRun sampleJet sampleEvent
    (UParTEvaluator.new 20 2.4 0) shortRun_mismatch).1⟩

/-- C3, counterexample: the inference result has 1 entry against 30 class names, and the jet-pt
and jet-eta histograms still receive a call for the jet. -/
theorem processJet_mismatch_fills_jet_hists_counterexample :
    (runInference deltaRZero shortRun sampleJet sampleEvent
      (UParTEvaluator.new 20 2.4 0)).1.length ≠ (UParTEvaluator.new 20 2.4 0).classNames_.length ∧
    (UParTEvaluator.new 20 2.4 0).calls.filter Call.isSink = [] ∧
    (processJet deltaRZero shortRun sampleJet sampleEvent
      (UParTEvaluator.new 20 2.4 0)).calls.filter Call.isSink =
        [.jetPtHistFill 50, .jetEtaHistFill 1] := by
  refine ⟨shortRun_mismatch, ?_, ?_⟩
  · simp [UParTEvaluator.new, Call.isSink]
  · rw [processJet_calls, if_neg shortRun_mismatch]
    simp only [List.filter_append, List.filter_cons, List.filter_nil, (filter_resultLog _).1,
      (fillInputTensorsLog_kind _).1, (modelCall_kind _ _ _ _).1]
    simp [Call.isSink, UParTEvaluator.new, sampleJet]

/-- On an invalid jet handle `analyze` only logs a warning. -/
theorem analyze_invalid_jets (deltaR : DeltaR) (run : OnnxRun)
    (pfCands : Option (List PackedCandidate)) (st : UParTEvaluator) :
    analyze deltaR run ⟨none, pfCands⟩ st = st.call (.logWarning "Invalid jet collection") := rfl

theorem analyze_single (deltaR : DeltaR) (run : OnnxRun) (jet : Jet)
    (pfCands : Option (List PackedCandidate)) (st : UParTEvaluator)
    (h : skipJet (st.call (.logInfo "Processing jets in event ")) jet = false) :
    analyze deltaR run ⟨some [jet], pfCands⟩ st =
      processJet deltaR run jet ⟨some [jet], pfCands⟩
        (st.call (.logInfo "Processing jets in event ")) := by
  simp [analyze, h]

theorem skipJet_sampleJet (st : UParTEvaluator) (h1 : st.jetPtMin_ = 20)
    (h2 : st.jetEtaMax_ = 2.4) : skipJet st sampleJet = false := by
  rw [show sampleJet = ⟨.fin 50, .fin 1, 0, 10⟩ from rfl,
    skipJet_fin st 50 1 20 2.4 0 10 h1 h2]
  norm_num [abs_of_pos]

/-- With an invalid candidate handle `fillInputTensors` changes nothing but the log. -/
theorem fillInputTensors_invalid (deltaR : DeltaR) (jet : Jet) (jets : Option (List Jet))
    (st : UParTEvaluator) :
    fillInputTensors deltaR jet ⟨jets, none⟩ st =
      st.call (.logWarning "Invalid PF candidate collection") := rfl

theorem processJet_tensorData (deltaR : DeltaR) (run : OnnxRun) (jet : Jet) (iEvent : Event)
    (st : UParTEvaluator) :
    (processJet deltaR run jet iEvent st).tensorData_ =
      (fillInputTensors deltaR jet iEvent st).tensorData_ := by
  have hj := jetState_fixed jet st
  have ht := (fillInputTensors_tensors_congr deltaR jet iEvent (jetState jet st) st
    hj.2.2.2.2.2.2.1 hj.2.2.2.2.2.2.2.1 hj.2.2.2.2.2.2.2.2.1).1
  have hr : (runInference deltaR run jet iEvent (jetState jet st)).2.tensorData_ =
      (fillInputTensors deltaR jet iEvent (jetState jet st)).tensorData_ := by
    unfold runInference
    simp only []
    generalize run _ _ _ _ 1 = r
    rcases r with e | (_ | ⟨out0, t⟩)
    · rfl
    · rfl
    · by_cases h0 : out0.isEmpty = true <;> simp [h0]
  rw [processJet_eq]
  simp only []
  split
  · exact hr.trans ht
  · exact hr.trans ht

theorem processJet_calls_filter (p : Call → Bool) (deltaR : DeltaR) (run : OnnxRun) (jet : Jet)
    (iEvent : Event) (st : UParTEvaluator) :
    (processJet deltaR run jet iEvent st).calls.filter p =
      st.calls.filter p ++ [Call.jetPtHistFill jet.pt, Call.jetEtaHistFill jet.eta].filter p ++
        [fillInputTensorsLog iEvent].filter p ++ [modelCall deltaR jet iEvent st].filter p ++
        (resultLog (modelOutcome deltaR run jet iEvent st)).filter p ++
        (if (runInference deltaR run jet iEvent st).1.length = st.classNames_.length then
          recordCalls st.classNames_ jet (runInference deltaR run jet iEvent st).1
        else [.logWarning "Unexpected prediction size: "]).filter p := by
  rw [processJet_calls]
  have e : [Call.jetPtHistFill jet.pt, Call.jetEtaHistFill jet.eta, fillInputTensorsLog iEvent,
      modelCall deltaR jet iEvent st] =
      [Call.jetPtHistFill jet.pt, Call.jetEtaHistFill jet.eta] ++ [fillInputTensorsLog iEvent] ++
        [modelCall deltaR jet iEvent st] := rfl
  rw [e]
  simp only [List.filter_append, List.append_assoc]

theorem filter_single_false (p : Call → Bool) (c : Call) (h : p c = false) :
    [c].filter p = [] := by
  simp [List.filter_cons, h]

theorem filter_single_true (p : Call → Bool) (c : Call) (h : p c = true) :
    [c].filter p = [c] := by
  simp [List.filter_cons, h]

/-- The model invocations `processJet` adds to the record: exactly one. -/
theorem processJet_calls_onnxRun (deltaR : DeltaR) (run : OnnxRun) (jet : Jet)
    (iEvent : Event) (st : UParTEvaluator) :
    (processJet deltaR run jet iEvent st).calls.filter Call.isOnnxRun =
      st.calls.filter Call.isOnnxRun ++ [modelCall deltaR jet iEvent st] := by
  rw [processJet_calls_filter, filter_single_false _ _ (fillInputTensorsLog_kind iEvent).2.2.2,
    filter_single_true _ _ (modelCall_kind deltaR jet iEvent st).2.2.2, (filter_resultLog _).2.2.2]
  have h1 : [Call.jetPtHistFill jet.pt, Call.jetEtaHistFill jet.eta].filter Call.isOnnxRun = [] :=
    rfl
  have h2 : (if (runInference deltaR run jet iEvent st).1.length = st.classNames_.length then
        recordCalls st.classNames_ jet (runInference deltaR run jet iEvent st).1
      else [Call.logWarning "Unexpected prediction size: "]).filter Call.isOnnxRun = [] := by
    split
    · exact (filter_recordCalls _ _ _).2
    · rfl
  rw [h1, h2]
  simp

/-- The sink calls `processJet` adds to the record start with the two jet histograms. -/
theorem processJet_calls_sink (deltaR : DeltaR) (run : OnnxRun) (jet : Jet)
    (iEvent : Event) (st : UParTEvaluator) :
    (processJet deltaR run jet iEvent st).calls.filter Call.isSink =
      st.calls.filter Call.isSink ++ [Call.jetPtHistFill jet.pt, Call.jetEtaHistFill jet.eta] ++
        (if (runInference deltaR run jet iEvent st).1.length = st.classNames_.length then
          recordCalls st.classNames_ jet (runInference deltaR run jet iEvent st).1
        else [.logWarning "Unexpected prediction size: "]).filter Call.isSink := by
  rw [processJet_calls_filter, filter_single_false _ _ (fillInputTensorsLog_kind iEvent).1,
    filter_single_false _ _ (modelCall_kind deltaR jet iEvent st).1, (filter_resultLog _).1]
  have h1 : [Call.jetPtHistFill jet.pt, Call.jetEtaHistFill jet.eta].filter Call.isSink =
      [Call.jetPtHistFill jet.pt, Call.jetEtaHistFill jet.eta] := rfl
  rw [h1]
  simp

/-- C4, at the failing input: the jet handle is valid and holds one selected jet, the candidate
handle is invalid, and the tensor state holds buffers `td` and shapes `sh` left by an earlier
jet. `analyze` still processes the jet: the model is invoked once, on the left-over buffers, the
jet-pt and jet-eta histograms are filled, and the buffers are not rebuilt. When the model call
raises a fault a row is appended to the output tree as well. -/
theorem analyze_invalid_candidates_invokes_model (run : OnnxRun) (td : FloatArrays)
    (sh : List (List Int)) :
    (analyze deltaRZero run ⟨some [sampleJet], none⟩
      (staleState td sh)).calls.filter
        Call.isOnnxRun =
      [.onnxRun ["input_1", "input_2", "input_3", "input_4", "input_5", "input_6", "input_7",
        "input_8"] td sh ["softmax"] 1] ∧
    [Call.jetPtHistFill 50, Call.jetEtaHistFill 1] <+:
      (analyze deltaRZero run ⟨some [sampleJet], none⟩
        (staleState td sh)).calls.filter
          Call.isSink ∧
    (analyze deltaRZero run ⟨some [sampleJet], none⟩
      (staleState td sh)).tensorData_ =
        td ∧
    (analyze deltaRZero faultRun ⟨some [sampleJet], none⟩
      (staleState td sh)).calls.filter
        Call.isTreeFill =
      [.outputTreeFill 50 1 0 10 (List.replicate 30 (-1))] := by
  have hskip : skipJet ((staleState td sh).call (.logInfo "Processing jets in event "))
      sampleJet = false := skipJet_sampleJet _ rfl rfl
  refine ⟨?_, ?_, ?_, ?_⟩
  · rw [analyze_single _ _ _ _ _ hskip, processJet_calls_onnxRun]
    rfl
  · rw [analyze_single _ _ _ _ _ hskip, processJet_calls_sink]
    exact ⟨_, rfl⟩
  · rw [analyze_single _ _ _ _ _ hskip, processJet_tensorData, fillInputTensors_invalid]
    rfl
  · have hf : modelOutcome deltaRZero faultRun sampleJet ⟨some [sampleJet], none⟩
        ((staleState td sh).call (.logInfo "Processing jets in event ")) =
        .error "fault" := rfl
    have hr : (runInference deltaRZero faultRun sampleJet ⟨some [sampleJet], none⟩
        ((staleState td sh).call (.logInfo "Processing jets in event "))).1 =
        List.replicate 30 (-1) := by
      rw [runInference_fst, hf]
      simp [resultOf, sentinel_eq, UParTEvaluator.new, classNames_length, staleState]
    have hn : ((staleState td sh).call
            (.logInfo "Processing jets in event ")).classNames_.length = 30 := classNames_length
    rw [analyze_single _ _ _ _ _ hskip, processJet_calls, hr, hn]
    simp only [List.filter_append, List.filter_cons, List.filter_nil, (filter_resultLog _).2.2.1,
      (fillInputTensorsLog_kind _).2.2.1, (modelCall_kind _ _ _ _).2.2.1,
      (filter_recordCalls _ _ _).1, List.length_replicate, if_true]
    simp [Call.isTreeFill, UParTEvaluator.new, sampleJet, staleState]

theorem skipJet_nanJet (st : UParTEvaluator) (h : st.jetEtaMax_ = 2.4) :
    skipJet st nanJet = false := by
  rw [skipJet_eq_false_iff, h]
  refine ⟨FloatVal.not_nan_lt _, ?_⟩
  show ¬ FloatVal.fin 2.4 < fabs (FloatVal.fin 1)
  rw [fabs_fin, FloatVal.fin_lt_fin]
  norm_num [abs_of_pos]

/-- C9, counterexample: with the limits 20 and 2.4, a jet whose pt is NaN (eta 1) does not
satisfy `pt >= jetPtMin`, yet both comparisons of the guard are false on it: `analyze` hands it
to `processJet`, and the jet-pt histogram is filled with NaN. -/
theorem analyze_nan_jet_counterexample :
    ¬ (nanJet.pt ≥ (UParTEvaluator.new 20 2.4 0).jetPtMin_ ∧
        fabs nanJet.eta ≤ (UParTEvaluator.new 20 2.4 0).jetEtaMax_) ∧
    analyze deltaRZero faultRun ⟨some [nanJet], some []⟩ (UParTEvaluator.new 20 2.4 0) =
      processJet deltaRZero faultRun nanJet ⟨some [nanJet], some []⟩
        ((UParTEvaluator.new 20 2.4 0).call (.logInfo "Processing jets in event ")) ∧
    [Call.jetPtHistFill .nan, Call.jetEtaHistFill 1] <+:
      (analyze deltaRZero faultRun ⟨some [nanJet], some []⟩
        (UParTEvaluator.new 20 2.4 0)).calls.filter Call.isSink := by
  have hskip : skipJet ((UParTEvaluator.new 20 2.4 0).call
      (.logInfo "Processing jets in event ")) nanJet = false := skipJet_nanJet _ rfl
  refine ⟨?_, analyze_single _ _ _ _ _ hskip, ?_⟩
  · rintro ⟨h, _⟩
    exact FloatVal.not_le_nan _ h
  · rw [analyze_single _ _ _ _ _ hskip, processJet_calls_sink]
    exact ⟨_, rfl⟩

end hitools
